import Mathlib

/-!
Verification development for a C++ JSON Schema (Draft-4 subset) validator
(`src/json-validator.cpp`).  The document-tree library (nlohmann::json) is
embedded as the mutual inductive `Json`/`JArr`/`JObj` below; objects are kept
in key-sorted order, mirroring the `std::map` representation nlohmann uses,
so list iteration order in this model equals iteration order in the C++ code.
Numbers are embedded as `Nat`/`Int`/`Rat`: the validator converts every
number to `double` before comparing, and all numeric literals exercised here
are small integers on which `double` arithmetic is exact, so `Rat` order and
equality coincide with the `double` order and equality the code computes.
Exceptions are modelled as `CppErr` values threaded out of each function;
the possibly-mutated instance is returned alongside, since C++ exceptions
leave in-place mutations (default insertion) visible to the caller.
-/

set_option autoImplicit false

mutual

/-- Document tree: nlohmann::json with its three numeric kinds
    (`number_unsigned`, `number_integer`, `number_float`). -/
inductive Json where
  | null
  | bool (b : Bool)
  | numU (n : Nat)
  | numI (i : Int)
  | numF (q : Rat)
  | str (s : String)
  | arr (xs : JArr)
  | obj (kvs : JObj)

/-- Array of documents (spine kept separate from `List` so that all
    recursions over the tree are structural and kernel-computable). -/
inductive JArr where
  | nil
  | cons (hd : Json) (tl : JArr)

/-- Object members, kept sorted by key (std::map iteration order). -/
inductive JObj where
  | nil
  | cons (k : String) (v : Json) (tl : JObj)

end

/-- Byte-lexicographic string order, as std::string::operator< compares
    object keys (all keys used here are ASCII, where code-point order and
    byte order agree). -/
def strLt (a b : String) : Bool :=
  go a.data b.data
where
  go : List Char → List Char → Bool
    | [], [] => false
    | [], _ :: _ => true
    | _ :: _, [] => false
    | c :: cs, d :: ds => if c = d then go cs ds else decide (c < d)

def JObj.lookup : JObj → String → Option Json
  | .nil, _ => none
  | .cons k v tl, key => if k = key then some v else tl.lookup key

/-- `instance[key] = value`: std::map insert-or-assign, keeping sorted order. -/
def JObj.insert : JObj → String → Json → JObj
  | .nil, k, v => .cons k v .nil
  | .cons k' v' tl, k, v =>
    if strLt k k' then .cons k v (.cons k' v' tl)
    else if k = k' then .cons k v tl
    else .cons k' v' (tl.insert k v)

def JObj.keys : JObj → List String
  | .nil => []
  | .cons k _ tl => k :: tl.keys

def JObj.length : JObj → Nat
  | .nil => 0
  | .cons _ _ tl => tl.length + 1

def JObj.values : JObj → List Json
  | .nil => []
  | .cons _ v tl => v :: tl.values

def JArr.toList : JArr → List Json
  | .nil => []
  | .cons x tl => x :: tl.toList

def JArr.length : JArr → Nat
  | .nil => 0
  | .cons _ tl => tl.length + 1

def JArr.ofList : List Json → JArr
  | [] => .nil
  | x :: tl => .cons x (JArr.ofList tl)

/-- `schema.find(key)`: key lookup on objects, `end()` (none) on any other
    value kind, as nlohmann's `find` behaves. -/
def Json.find : Json → String → Option Json
  | .obj kvs, key => kvs.lookup key
  | _, _ => none

/-- Build an object literal; insertion keeps the sorted std::map order, so
    literals written in any order land in the representation nlohmann uses. -/
def Json.mkObj (l : List (String × Json)) : Json :=
  .obj (l.foldl (fun o kv => o.insert kv.1 kv.2) .nil)

def Json.mkArr (l : List Json) : Json :=
  .arr (JArr.ofList l)

/-- Numeric value of a document node, as the implicit `double` conversion
    the validator performs (`double value = instance;`). -/
def numVal : Json → Option Rat
  | .numU n => some n
  | .numI i => some i
  | .numF q => some q
  | _ => none

/-- Members of an object node, empty for any other node (iterating a
    non-object in nlohmann either yields nothing (null) or throws on
    `.key()`; the throwing cases are not reachable in this development). -/
def objMembers : Json → JObj
  | .obj kvs => kvs
  | _ => .nil

/-- Range-for iteration over an nlohmann value: array elements, object
    values, nothing for null, the value itself for a scalar. -/
def iterElems : Json → List Json
  | .arr xs => xs.toList
  | .obj kvs => kvs.values
  | .null => []
  | j => [j]

/-- Decimal digit characters of a natural number (std::to_string /
    operator<< formatting).  The first argument is fuel, at least the
    digit count (the number itself suffices), keeping the recursion
    structural so the kernel can evaluate it. -/
def natDigits : Nat → Nat → List Char → List Char
  | 0, _, acc => acc
  | _ + 1, 0, acc => acc
  | fuel + 1, m, acc => natDigits fuel (m / 10) (Char.ofNat (48 + m % 10) :: acc)

def natStr (n : Nat) : String :=
  if n = 0 then "0" else String.mk (natDigits n n [])

def intStr (i : Int) : String :=
  match i with
  | .ofNat n => natStr n
  | .negSucc n => "-" ++ natStr (n + 1)

/-- Rendering of a floating-point number in diagnostics.  The C++ prints
    doubles through operator<<; none of the message texts proved about in
    this development contain a float, so the exact format is inessential
    and an exact rational rendering is used. -/
def ratStr (q : Rat) : String :=
  if q.den = 1 then intStr q.num else intStr q.num ++ "/" ++ natStr q.den

def escChars : List Char → List Char
  | [] => []
  | c :: tl =>
    if c = '\"' then '\\' :: '\"' :: escChars tl
    else if c = '\\' then '\\' :: '\\' :: escChars tl
    else c :: escChars tl

mutual

/-- nlohmann `operator<<`/`dump()`: compact JSON rendering used when error
    messages embed a value (control-character escaping beyond quote and
    backslash is not exercised by any message proved about here). -/
def dump : Json → String
  | .null => "null"
  | .bool true => "true"
  | .bool false => "false"
  | .numU n => natStr n
  | .numI i => intStr i
  | .numF q => ratStr q
  | .str s => "\"" ++ String.mk (escChars s.data) ++ "\""
  | .arr xs => "[" ++ dumpArr xs ++ "]"
  | .obj kvs => "\x7b" ++ dumpObj kvs ++ "\x7d"

def dumpArr : JArr → String
  | .nil => ""
  | .cons x .nil => dump x
  | .cons x tl => dump x ++ "," ++ dumpArr tl

def dumpObj : JObj → String
  | .nil => ""
  | .cons k v .nil => "\"" ++ k ++ "\":" ++ dump v
  | .cons k v tl => "\"" ++ k ++ "\":" ++ dump v ++ "," ++ dumpObj tl

end

mutual

/-- nlohmann `operator==`: structural equality except that the three
    numeric kinds compare by value (`1u == 1.0` holds). -/
def jsonEqB : Json → Json → Bool
  | .null, .null => true
  | .bool a, .bool b => a == b
  | .str a, .str b => a == b
  | .arr a, .arr b => jarrEqB a b
  | .obj a, .obj b => jobjEqB a b
  | a, b =>
    match numVal a, numVal b with
    | some x, some y => x == y
    | _, _ => false

def jarrEqB : JArr → JArr → Bool
  | .nil, .nil => true
  | .cons x xs, .cons y ys => jsonEqB x y && jarrEqB xs ys
  | _, _ => false

def jobjEqB : JObj → JObj → Bool
  | .nil, .nil => true
  | .cons k v tl, .cons k' v' tl' => k == k' && jsonEqB v v' && jobjEqB tl tl'
  | _, _ => false

end

/-- Exceptions thrown by the validator.  `typeErr` stands for the
    nlohmann `type_error` raised by a checked conversion at a modelled
    library boundary; `nonTermination` marks a `$ref` cycle on which the
    C++ `do/while` loop would never return; `outOfFuel` marks exhaustion
    of the explicit recursion bound of the model (the C++ recursion has
    no bound; every theorem below either supplies ample fuel or holds for
    every fuel). -/
inductive CppErr where
  | invalidArg (msg : String)
  | outOfRange (msg : String)
  | logicErr (msg : String)
  | typeErr (msg : String)
  | nonTermination
  | outOfFuel
deriving DecidableEq, Repr

/-- `json_validator::not_yet_implemented` (json-validator.cpp:165). -/
def not_yet_implemented (schema : Json) (field ty : String) : Option CppErr :=
  if (schema.find field).isSome then
    some (.logicErr (field ++ " for " ++ ty ++ " is not yet implemented"))
  else none

/-- `json_validator::validate_type` (json-validator.cpp:171).  A `type`
    array is scanned with `std::find` comparing each element to the
    expected tag (a json/string comparison, false on non-strings); a
    non-array `type` is compared to the tag and, on mismatch, converted
    by `get<std::string>(), which throws for non-strings. -/
def validate_type (schema : Json) (expected_type name : String) : Option CppErr :=
  match schema.find "type" with
  | none => none
  | some type_instance =>
    match type_instance with
    | .arr xs =>
      if (xs.toList.any fun e =>
            match e with
            | .str s => s == expected_type
            | _ => false) then none
      else some (.invalidArg
        (expected_type ++ " is not any of " ++ dump type_instance ++ " for " ++ name))
    | .str s =>
      if s = expected_type then none
      else some (.invalidArg (s ++ " is not a " ++ expected_type ++ " for " ++ name))
    | _ => some (.typeErr "type keyword is neither an array nor a string")

/-- `json_validator::validate_enum` (json-validator.cpp:202). -/
def validate_enum (instance_ schema : Json) (name : String) : Option CppErr :=
  match schema.find "enum" with
  | none => none
  | some ev =>
    if (iterElems ev).any (fun e => jsonEqB e instance_) then none
    else some (.invalidArg
      ("invalid enum-value \x27" ++ dump instance_ ++ "\x27 for instance \x27" ++ name
        ++ "\x27. Candidates are " ++ dump ev ++ "."))

/-- `multipleOf` check inside `validate_numeric` (json-validator.cpp:256).
    `fmod(value, m)` is zero exactly when `value / m` is an integer (for
    `m ≠ 0`); `fmod(value, 0)` is NaN, which compares unequal to `0.0`,
    so a zero divisor throws as well. -/
def multipleOfCheck (value : Rat) (schema : Json) (name : String) : Option CppErr :=
  match schema.find "multipleOf" with
  | none => none
  | some mv =>
    match numVal mv with
    | none => some (.typeErr "multipleOf value is not a number")
    | some m =>
      if m = 0 then some (.outOfRange (name ++ " is not a multiple ..."))
      else if (value / m).den = 1 then none
      else some (.outOfRange (name ++ " is not a multiple ..."))

/-- `maximum`/`exclusiveMaximum` check (json-validator.cpp:263).  Note:
    the code tests only *presence* of `exclusiveMaximum`
    (`schema.find("exclusiveMaximum") != schema.end()`), never its value. -/
def maximumCheck (value : Rat) (schema : Json) (name : String) : Option CppErr :=
  match schema.find "maximum" with
  | none => none
  | some mv =>
    match numVal mv with
    | none => some (.typeErr "maximum value is not a number")
    | some maxi =>
      if (schema.find "exclusiveMaximum").isSome then
        if value ≥ maxi then some (.outOfRange (name ++ " exceeds maximum of ...")) else none
      else
        if value > maxi then some (.outOfRange (name ++ " exceeds maximum of ...")) else none

/-- `minimum`/`exclusiveMinimum` check (json-validator.cpp:276); as with
    the maximum, only the *presence* of `exclusiveMinimum` is tested. -/
def minimumCheck (value : Rat) (schema : Json) (name : String) : Option CppErr :=
  match schema.find "minimum" with
  | none => none
  | some mv =>
    match numVal mv with
    | none => some (.typeErr "minimum value is not a number")
    | some mini =>
      if (schema.find "exclusiveMinimum").isSome then
        if value ≤ mini then some (.outOfRange (name ++ " exceeds minimum of ...")) else none
      else
        if value < mini then some (.outOfRange (name ++ " exceeds minimum of ...")) else none

/-- `json_validator::validate_numeric` (json-validator.cpp:252). -/
def validate_numeric (instance_ schema : Json) (name : String) : Option CppErr :=
  match numVal instance_ with
  | none => some (.typeErr "numeric conversion of a non-number")
  | some value =>
    match multipleOfCheck value schema name with
    | some e => some e
    | none =>
      match maximumCheck value schema name with
      | some e => some e
      | none => minimumCheck value schema name

/-- `json_validator::validate_integer` (json-validator.cpp:290). -/
def validate_integer (instance_ schema : Json) (name : String) : Option CppErr :=
  match validate_type schema "integer" name with
  | some e => some e
  | none => validate_numeric instance_ schema name

/-- `json_validator::validate_unsigned` (json-validator.cpp:296): an
    unsigned instance is checked against the tag `"integer"`. -/
def validate_unsigned (instance_ schema : Json) (name : String) : Option CppErr :=
  match validate_type schema "integer" name with
  | some e => some e
  | none => validate_numeric instance_ schema name

/-- `json_validator::validate_float` (json-validator.cpp:302). -/
def validate_float (instance_ schema : Json) (name : String) : Option CppErr :=
  match validate_type schema "number" name with
  | some e => some e
  | none => validate_numeric instance_ schema name

/-- `minLength` check on the byte length of the string
    (json-validator.cpp:227); a non-numeric bound would be compared by
    nlohmann's cross-type ordering, which no schema here exercises, and is
    modelled as passing. -/
def minLengthCheck (instance_ : Json) (schema : Json) (name : String) : Option CppErr :=
  match schema.find "minLength" with
  | none => none
  | some attr =>
    match instance_ with
    | .str s =>
      match numVal attr with
      | some q =>
        if (s.utf8ByteSize : Rat) < q then
          some (.outOfRange ("\x27" ++ name ++ "\x27 of value \x27" ++ dump instance_
            ++ "\x27 is too short as per minLength (" ++ dump attr ++ ")"))
        else none
      | none => none
    | _ => some (.typeErr "string conversion of a non-string")

/-- `maxLength` check (json-validator.cpp:237). -/
def maxLengthCheck (instance_ : Json) (schema : Json) (name : String) : Option CppErr :=
  match schema.find "maxLength" with
  | none => none
  | some attr =>
    match instance_ with
    | .str s =>
      match numVal attr with
      | some q =>
        if (s.utf8ByteSize : Rat) > q then
          some (.outOfRange ("\x27" ++ name ++ "\x27 of value \x27" ++ dump instance_
            ++ "\x27 is too long as per maxLength (" ++ dump attr ++ ")"))
        else none
      | none => none
    | _ => some (.typeErr "string conversion of a non-string")

/-- `json_validator::validate_string` (json-validator.cpp:218): `format`
    and `pattern` are refused up front, then the type check, then the
    length bounds. -/
def validate_string (instance_ schema : Json) (name : String) : Option CppErr :=
  match not_yet_implemented schema "format" "string" with
  | some e => some e
  | none =>
    match not_yet_implemented schema "pattern" "string" with
    | some e => some e
    | none =>
      match validate_type schema "string" name with
      | some e => some e
      | none =>
        match minLengthCheck instance_ schema name with
        | some e => some e
        | none => maxLengthCheck instance_ schema name

/-- `json_validator::validate_boolean` (json-validator.cpp:247). -/
def validate_boolean (schema : Json) (name : String) : Option CppErr :=
  validate_type schema "boolean" name

/-- `json_validator::validate_null` (json-validator.cpp:308). -/
def validate_null (schema : Json) (name : String) : Option CppErr :=
  validate_type schema "null" name

/-- `maxItems` check (json-validator.cpp:318). -/
def maxItemsCheck (len : Nat) (schema : Json) (name : String) : Option CppErr :=
  match schema.find "maxItems" with
  | none => none
  | some mv =>
    match numVal mv with
    | some q => if (len : Rat) > q then some (.outOfRange (name ++ " has too many items.")) else none
    | none => none

/-- `minItems` check (json-validator.cpp:324); the message is the
    maxItems wording, exactly as in the source. -/
def minItemsCheck (len : Nat) (schema : Json) (name : String) : Option CppErr :=
  match schema.find "minItems" with
  | none => none
  | some mv =>
    match numVal mv with
    | some q => if (len : Rat) < q then some (.outOfRange (name ++ " has too many items.")) else none
    | none => none

/-- Scan for the first element equal (nlohmann equality) to an earlier
    one, as the `std::set` insertion loop of the `uniqueItems` check
    detects it (json-validator.cpp:330). -/
def hasDupElem : List Json → List Json → Bool
  | _, [] => false
  | seen, x :: rest => if seen.any (jsonEqB x) then true else hasDupElem (x :: seen) rest

def uniqueItemsCheck (xs : List Json) (schema : Json) (name : String) : Option CppErr :=
  match schema.find "uniqueItems" with
  | some (.bool true) =>
    if hasDupElem [] xs then some (.outOfRange (name ++ " should have only unique items.")) else none
  | _ => none

/-- Element access used in stating the positional `items` rule. -/
def JArr.get? : JArr → Nat → Option Json
  | .nil, _ => none
  | .cons x _, 0 => some x
  | .cons _ tl, n + 1 => tl.get? n

/-- The `items`/`additionalItems` element loop of
    `json_validator::validate_array` (json-validator.cpp:353-397),
    returning the array with the in-place element mutations performed
    before the loop returned or the exception escaped.  `v` is the
    recursive `validate`.  A boolean `additionalItems` that is `true`
    sets `validation_done`, which breaks out of the loop with the
    remaining elements untouched. -/
def arrayLoop (v : Json → Json → String → Json × Option CppErr)
    (items additionalItems : Json) (name : String) :
    Nat → JArr → JArr × Option CppErr
  | _, .nil => (.nil, none)
  | i, .cons value rest =>
    let sub_name := name ++ "[" ++ natStr i ++ "]"
    match items with
    | .arr its =>
      match its.get? i with
      | some si =>
        match v value si sub_name with
        | (value', some e) => (.cons value' rest, some e)
        | (value', none) =>
          let r := arrayLoop v items additionalItems name (i + 1) rest
          (.cons value' r.1, r.2)
      | none =>
        match additionalItems with
        | .obj kvs2 =>
          match v value (.obj kvs2) sub_name with
          | (value', some e) => (.cons value' rest, some e)
          | (value', none) =>
            let r := arrayLoop v items additionalItems name (i + 1) rest
            (.cons value' r.1, r.2)
        | .bool b =>
          if b then (.cons value rest, none)
          else (.cons value rest,
            some (.outOfRange ("additional values in array are not allowed for " ++ sub_name)))
        | _ =>
          let r := arrayLoop v items additionalItems name (i + 1) rest
          (.cons value r.1, r.2)
    | .obj kvs2 =>
      match v value (.obj kvs2) sub_name with
      | (value', some e) => (.cons value' rest, some e)
      | (value', none) =>
        let r := arrayLoop v items additionalItems name (i + 1) rest
        (.cons value' r.1, r.2)
    | _ =>
      let r := arrayLoop v items additionalItems name (i + 1) rest
      (.cons value r.1, r.2)

/-- `json_validator::validate_array` (json-validator.cpp:313). -/
def validate_array (v : Json → Json → String → Json × Option CppErr)
    (xs : JArr) (schema : Json) (name : String) : JArr × Option CppErr :=
  match validate_type schema "array" name with
  | some e => (xs, some e)
  | none =>
    match maxItemsCheck xs.length schema name with
    | some e => (xs, some e)
    | none =>
      match minItemsCheck xs.length schema name with
      | some e => (xs, some e)
      | none =>
        match uniqueItemsCheck xs.toList schema name with
        | some e => (xs, some e)
        | none =>
          let items := (schema.find "items").getD .null
          let additionalItems := (schema.find "additionalItems").getD .null
          arrayLoop v items additionalItems name 0 xs

/-- `maxProperties` check (json-validator.cpp:426). -/
def maxPropertiesCheck (len : Nat) (schema : Json) (name : String) : Option CppErr :=
  match schema.find "maxProperties" with
  | none => none
  | some mv =>
    match numVal mv with
    | some q => if (len : Rat) > q then some (.outOfRange (name ++ " has too many properties.")) else none
    | none => none

/-- `minProperties` check (json-validator.cpp:432). -/
def minPropertiesCheck (len : Nat) (schema : Json) (name : String) : Option CppErr :=
  match schema.find "minProperties" with
  | none => none
  | some mv =>
    match numVal mv with
    | some q => if (len : Rat) < q then some (.outOfRange (name ++ " has too few properties.")) else none
    | none => none

/-- The `additionalProperties` mode enum of `validate_object`
    (json-validator.cpp:438): `True` (default), `False`, or a schema. -/
inductive APMode where
  | T
  | F
  | O (s : Json)

def apModeOf (schema : Json) : APMode :=
  match schema.find "additionalProperties" with
  | none => .T
  | some (.bool b) => if b then .T else .F
  | some other => .O other

/-- Default-value insertion (json-validator.cpp:411-423): for each entry
    of `properties` carrying a `default`, insert that value into the
    instance when the key is absent. -/
def defaultsInsert : JObj → JObj → JObj
  | .nil, kvs => kvs
  | .cons pk ps tl, kvs =>
    match ps.find "default" with
    | none => defaultsInsert tl kvs
    | some d =>
      match kvs.lookup pk with
      | some _ => defaultsInsert tl kvs
      | none => defaultsInsert tl (kvs.insert pk d)

/-- The `patternProperties` fold for one instance key
    (json-validator.cpp:469-478): every entry whose regex matches the key
    validates the (threaded) value; the boolean records whether any
    pattern matched.  `rs` abstracts `std::regex_search` with an
    ECMAScript regex, which lives in the C++ standard library. -/
def patFold (v : Json → Json → String → Json × Option CppErr)
    (rs : String → String → Bool) (child_name k : String) :
    JObj → Json → Bool → Json × Bool × Option CppErr
  | .nil, val, m => (val, m, none)
  | .cons pk ps tl, val, m =>
    if rs pk k then
      match v val ps child_name with
      | (val', some e) => (val', true, some e)
      | (val', none) => patFold v rs child_name k tl val' true
    else patFold v rs child_name k tl val m

/-- Handling of one instance key in the object loop
    (json-validator.cpp:458-494): a key named in `properties` is
    validated against its sub-schema; otherwise the `patternProperties`
    fold runs, and if no pattern matched the `additionalProperties` mode
    decides. -/
def objChild (v : Json → Json → String → Json × Option CppErr)
    (rs : String → String → Bool) (properties patternProperties : Json)
    (ap : APMode) (name k : String) (val : Json) : Json × Option CppErr :=
  match properties.find k with
  | some ps => v val ps (name ++ "." ++ k)
  | none =>
    match patFold v rs (name ++ "." ++ k) k (objMembers patternProperties) val false with
    | (val', _, some e) => (val', some e)
    | (val', true, none) => (val', none)
    | (val', false, none) =>
      match ap with
      | .T => (val', none)
      | .O s => v val' s (name ++ "." ++ k)
      | .F => (val', some (.invalidArg
          ("unknown property \x27" ++ k ++ "\x27 in object \x27" ++ name ++ "\x27")))

/-- The per-key loop over the instance object (json-validator.cpp:458),
    threading the in-place value mutations and stopping at the first
    exception. -/
def childLoop (v : Json → Json → String → Json × Option CppErr)
    (rs : String → String → Bool) (properties patternProperties : Json)
    (ap : APMode) (name : String) : JObj → JObj × Option CppErr
  | .nil => (.nil, none)
  | .cons k val tl =>
    match objChild v rs properties patternProperties ap name k val with
    | (val', some e) => (.cons k val' tl, some e)
    | (val', none) =>
      let r := childLoop v rs properties patternProperties ap name tl
      (.cons k val' r.1, r.2)

/-- `required` loop (json-validator.cpp:497-504); `instance.find(element)`
    converts the element to a string and throws on a non-string. -/
def requiredLoop (kvs : JObj) (name : String) : List Json → Option CppErr
  | [] => none
  | el :: tl =>
    match el with
    | .str s =>
      if (kvs.lookup s).isNone then
        some (.invalidArg
          ("required element \x27" ++ s ++ "\x27 not found in object \x27" ++ name ++ "\x27"))
      else requiredLoop kvs name tl
    | _ => some (.typeErr "required element is not a string")

/-- Array-valued dependency: each listed property must be present
    (json-validator.cpp:527-531). -/
def depArrayCheck (kvs : JObj) (sub_name : String) : List Json → Option CppErr
  | [] => none
  | p :: tl =>
    match p with
    | .str s =>
      if (kvs.lookup s).isNone then
        some (.invalidArg ("failed dependency for " ++ sub_name ++ ". Need property " ++ s))
      else depArrayCheck kvs sub_name tl
    | _ => some (.typeErr "dependency property is not a string")

/-- `dependencies` loop (json-validator.cpp:511-536).  An object-valued
    dependency validates the *whole current instance* against that
    schema (possibly mutating it); `validate` mutates in place in the
    C++, so a result that is no longer an object cannot arise there and
    the instance is kept in that (unreachable) case. -/
def depsLoop (v : Json → Json → String → Json × Option CppErr)
    (name : String) : JObj → JObj → JObj × Option CppErr
  | .nil, kvs => (kvs, none)
  | .cons dk dv tl, kvs =>
    if (kvs.lookup dk).isNone then depsLoop v name tl kvs
    else
      match dv with
      | .obj dkvs =>
        match v (.obj kvs) (.obj dkvs) (name ++ ".dependency-of-" ++ dk) with
        | (.obj kvs', none) => depsLoop v name tl kvs'
        | (.obj kvs', some e) => (kvs', some e)
        | (_, e) => (kvs, e)
      | .arr els =>
        match depArrayCheck kvs (name ++ ".dependency-of-" ++ dk) els.toList with
        | some e => (kvs, some e)
        | none => depsLoop v name tl kvs
      | _ => depsLoop v name tl kvs

/-- The `required` stage (json-validator.cpp:497): nothing to check when
    the keyword is absent. -/
def requiredPart (kvs : JObj) (schema : Json) (name : String) : Option CppErr :=
  match schema.find "required" with
  | none => none
  | some rv => requiredLoop kvs name (iterElems rv)

/-- The `dependencies` stage (json-validator.cpp:507).  Iterating a
    non-null non-object `dependencies` value would throw on `.key()` in
    nlohmann, modelled as a `typeErr`; a null value iterates over
    nothing. -/
def depsPart (v : Json → Json → String → Json × Option CppErr)
    (kvs : JObj) (schema : Json) (name : String) : JObj × Option CppErr :=
  match schema.find "dependencies" with
  | none => (kvs, none)
  | some .null => (kvs, none)
  | some (.obj dkvs) => depsLoop v name dkvs kvs
  | some _ => (kvs, some (.typeErr "dependencies value is not an object"))

/-- `json_validator::validate_object` (json-validator.cpp:400), in source
    order: type check, default insertion (when enabled), cardinality
    checks, per-key loop, `required`, `dependencies`. -/
def validate_object (v : Json → Json → String → Json × Option CppErr)
    (dvi : Bool) (rs : String → String → Bool)
    (kvs : JObj) (schema : Json) (name : String) : JObj × Option CppErr :=
  match validate_type schema "object" name with
  | some e => (kvs, some e)
  | none =>
    let properties := (schema.find "properties").getD .null
    let kvs1 := match dvi with
      | true => defaultsInsert (objMembers properties) kvs
      | false => kvs
    match maxPropertiesCheck kvs1.length schema name with
    | some e => (kvs1, some e)
    | none =>
      match minPropertiesCheck kvs1.length schema name with
      | some e => (kvs1, some e)
      | none =>
        let ap := apModeOf schema
        let patternProperties := (schema.find "patternProperties").getD .null
        match childLoop v rs properties patternProperties ap name kvs1 with
        | (kvs2, some e) => (kvs2, some e)
        | (kvs2, none) =>
          match requiredPart kvs2 schema name with
          | some e => (kvs2, some e)
          | none => depsPart v kvs2 schema name

/-- Validation context: the corpus URI→node map (`schema_refs_`, keyed by
    canonical URIs, looked up here through `toStr` canonical strings), the
    default-insertion flag, and the ECMAScript `std::regex_search`
    predicate (pattern, subject), which lives in the C++ standard
    library and is abstracted as a boolean function. -/
structure Ctx where
  corpus : List (String × Json)
  dvi : Bool
  rs : String → String → Bool

def corpusLookup : List (String × Json) → String → Option Json
  | [], _ => none
  | (u, s) :: tl, key => if u = key then some s else corpusLookup tl key

/-- The `$ref`-chasing `do/while` loop at the head of `validate`
    (json-validator.cpp:548-559).  The loop bound is the corpus size plus
    one: a longer chase revisits an entry, on which the C++ loop would
    never terminate (`nonTermination`). -/
def chaseRef (corpus : List (String × Json)) : Nat → Json → Except CppErr Json
  | 0, _ => .error .nonTermination
  | n + 1, s =>
    match s.find "$ref" with
    | none => .ok s
    | some (.str v) =>
      match corpusLookup corpus v with
      | some s2 => chaseRef corpus n s2
      | none => .error (.invalidArg ("schema reference " ++ v
          ++ " not found. Make sure all schemas have been inserted before validation."))
    | some _ => .error (.typeErr "ref value is not a string")

/-- The four refused combinators at the head of `validate`
    (json-validator.cpp:541-544), checked in source order on the schema
    node *as passed in*, before `$ref` chasing. -/
def nyiCombinators (schema : Json) : Option CppErr :=
  match not_yet_implemented schema "allOf" "all" with
  | some e => some e
  | none =>
    match not_yet_implemented schema "anyOf" "all" with
    | some e => some e
    | none =>
      match not_yet_implemented schema "oneOf" "all" with
      | some e => some e
      | none => not_yet_implemented schema "not" "all"

/-- `json_validator::validate(instance, schema, name)`
    (json-validator.cpp:539): refuse the unimplemented combinators, chase
    `$ref`, check `enum`, then dispatch on the instance's runtime kind.
    Returns the instance with whatever in-place mutations happened before
    a potential exception, plus that exception.  `fuel` bounds the
    recursion depth, which the C++ does not; all theorems below hold for
    every sufficient fuel. -/
def validate (ctx : Ctx) : Nat → Json → Json → String → Json × Option CppErr
  | 0 => fun instance_ _ _ => (instance_, some .outOfFuel)
  | fuel + 1 => fun instance_ schema0 name =>
    match nyiCombinators schema0 with
    | some e => (instance_, some e)
    | none =>
      match chaseRef ctx.corpus (ctx.corpus.length + 1) schema0 with
      | .error e => (instance_, some e)
      | .ok schema =>
        match validate_enum instance_ schema name with
        | some e => (instance_, some e)
        | none =>
          match instance_ with
          | .obj kvs =>
            let r := validate_object (fun i s n => validate ctx fuel i s n)
              ctx.dvi ctx.rs kvs schema name
            (.obj r.1, r.2)
          | .arr xs =>
            let r := validate_array (fun i s n => validate ctx fuel i s n) xs schema name
            (.arr r.1, r.2)
          | .str s => (.str s, validate_string (.str s) schema name)
          | .numU n => (.numU n, validate_unsigned (.numU n) schema name)
          | .numI i => (.numI i, validate_integer (.numI i) schema name)
          | .numF q => (.numF q, validate_float (.numF q) schema name)
          | .bool b => (.bool b, validate_boolean schema name)
          | .null => (.null, validate_null schema name)

/-- `validate(instance)` (json-validator.cpp:602): validate against the
    stored root, failing when none has been inserted. -/
def validateTop (corpus : List (String × Json)) (root : Option Json)
    (dvi : Bool) (rs : String → String → Bool) (fuel : Nat)
    (instance_ : Json) : Json × Option CppErr :=
  match root with
  | none => (instance_, some (.invalidArg
      "no root-schema has been inserted. Cannot validate an instance without it."))
  | some r => validate ⟨corpus, dvi, rs⟩ fuel instance_ r "root"

/-- Modelled from the spec: the schema-URI type `json_uri` of this
    repository lives outside `src/` (only `json-validator.cpp` is given);
    spec section 3 describes it as a pair of an absolute base URL and a
    fragment pointer, a sequence of escaped segments. -/
structure JsonUri where
  base : String
  frag : List String
deriving DecidableEq

/-- Split a character list at the first `#`. -/
def splitHash : List Char → List Char × Option (List Char)
  | [] => ([], none)
  | '#' :: tl => ([], some tl)
  | c :: tl =>
    let r := splitHash tl
    (c :: r.1, r.2)

/-- Split a character list into `/`-separated segments. -/
def splitSlash : List Char → List String
  | [] => [""]
  | '/' :: tl => "" :: splitSlash tl
  | c :: tl =>
    match splitSlash tl with
    | s :: ss => String.mk (c :: s.data) :: ss
    | [] => [String.mk [c]]

/-- Fragment text to pointer segments: `/a/b` gives `[a, b]`, the empty
    fragment gives the root pointer. -/
def parsePtr : List Char → List String
  | [] => []
  | '/' :: tl => splitSlash tl
  | cs => splitSlash cs

/-- Modelled from the spec (section 4.1): `json_uri::derive` — a
    `#`-only reference keeps the base and replaces the fragment; a
    reference with an authority/path replaces both, the fragment taken
    from after its `#` (or empty when absent). -/
def JsonUri.derive (u : JsonUri) (ref : String) : JsonUri :=
  match ref.data with
  | '#' :: rest => { base := u.base, frag := parsePtr rest }
  | cs =>
    match splitHash cs with
    | (b, some f) => { base := String.mk b, frag := parsePtr f }
    | (b, none) => { base := String.mk b, frag := [] }

/-- Modelled from the spec (section 3): `json_uri::append` extends the
    pointer by one already-escaped segment. -/
def JsonUri.append (u : JsonUri) (seg : String) : JsonUri :=
  { u with frag := u.frag ++ [seg] }

/-- Modelled from the spec (section 3): `json_uri::escape` turns an
    object key into a pointer segment (`~` to `~0`, `/` to `~1`). -/
def escapeKey (s : String) : String :=
  String.mk (go s.data)
where
  go : List Char → List Char
    | [] => []
    | '~' :: tl => '~' :: '0' :: go tl
    | '/' :: tl => '~' :: '1' :: go tl
    | c :: tl => c :: go tl

/-- JSON-pointer text of a fragment, as `pointer().to_string()`. -/
def ptrStr : List String → String
  | [] => ""
  | s :: tl => "/" ++ s ++ ptrStr tl

/-- Modelled from the spec (section 3): `json_uri::to_string`, the
    canonical form `base#/a/b` (the bare root is `#`). -/
def JsonUri.toStr (u : JsonUri) : String :=
  u.base ++ "#" ++ ptrStr u.frag

/-- `json_uri` built from a string (the single-argument constructor):
    derivation against the empty default document. -/
def JsonUri.ofString (s : String) : JsonUri :=
  JsonUri.derive ⟨"", []⟩ s

/-- URI of an object schema node: derived from a string-valued `id`
    member, the incoming URI otherwise (json-validator.cpp:40-44). -/
def deriveId (kvs : JObj) (id : JsonUri) : JsonUri :=
  match kvs.lookup "id" with
  | some (.str s) => id.derive s
  | _ => id

mutual

/-- Member processing of the recursive walk of the anonymous `resolver`
    (json-validator.cpp:38-85): a `default` member is skipped; an object
    child is a sub-schema, resolved under its (possibly `id`-derived) URI
    with its own binding recorded ahead of its descendants; an array
    child has its object elements resolved at `key/index`; a
    string-valued `$ref` is derived, rewritten in place to its canonical
    absolute form, and recorded.  Returns the members with rewritten
    `$ref` strings, the pre-order URI→sub-schema bindings of the
    descendants (each holding the fully rewritten sub-tree, as the C++
    stores pointers into the rewritten document), and the derived
    references.  The duplicate-URI check the C++ performs while walking
    is applied afterwards to the pre-order list, which finds the same
    first duplicate, before anything is stored. -/
def resolveMembers : JObj → JsonUri → JObj × List (JsonUri × Json) × List JsonUri
  | .nil, _ => (.nil, [], [])
  | .cons k v tl, id =>
    let rest := resolveMembers tl id
    if k = "default" then (.cons k v rest.1, rest.2)
    else
      match v with
      | .obj kvs2 =>
        let id2 := deriveId kvs2 (id.append (escapeKey k))
        let r := resolveMembers kvs2 id2
        (.cons k (.obj r.1) rest.1,
          ((id2, .obj r.1) :: r.2.1) ++ rest.2.1, r.2.2 ++ rest.2.2)
      | .arr xs =>
        let r := resolveElems xs 0 (id.append (escapeKey k))
        (.cons k (.arr r.1) rest.1, r.2.1 ++ rest.2.1, r.2.2 ++ rest.2.2)
      | .str s =>
        if k = "$ref" then
          let u := id.derive s
          (.cons k (.str u.toStr) rest.1, rest.2.1, u :: rest.2.2)
        else (.cons k (.str s) rest.1, rest.2)
      | w => (.cons k w rest.1, rest.2)

/-- Array-element processing of the resolver walk: only object elements
    are sub-schemas, addressed by their stringified index. -/
def resolveElems : JArr → Nat → JsonUri → JArr × List (JsonUri × Json) × List JsonUri
  | .nil, _, _ => (.nil, [], [])
  | .cons x tl, i, cid =>
    let rest := resolveElems tl (i + 1) cid
    match x with
    | .obj kvs2 =>
      let id2 := deriveId kvs2 (cid.append (natStr i))
      let r := resolveMembers kvs2 id2
      (.cons (.obj r.1) rest.1,
        ((id2, .obj r.1) :: r.2.1) ++ rest.2.1, r.2.2 ++ rest.2.2)
    | w => (.cons w rest.1, rest.2)

end

/-- Top-level resolver entry: an object document derives its URI from
    its `id`, records its own binding first, then walks its members; a
    non-object document gets its binding and has no members to walk
    (iterating a scalar document's children would throw in nlohmann; no
    such document is exercised here). -/
def resolveNode (j : Json) (id : JsonUri) :
    Json × List (JsonUri × Json) × List JsonUri :=
  match j with
  | .obj kvs =>
    let id2 := deriveId kvs id
    let r := resolveMembers kvs id2
    (.obj r.1, (id2, .obj r.1) :: r.2.1, r.2.2)
  | _ => (j, [(id, j)], [])

/-- First URI occurring twice in the pre-order binding list — the
    duplicate the C++ walk trips over first
    ("already present in local resolver", json-validator.cpp:46). -/
def findDup (seen : List JsonUri) : List JsonUri → Option JsonUri
  | [] => none
  | u :: tl => if seen.any (fun x => decide (x = u)) then some u else findDup (u :: seen) tl

def uriLookup : List (JsonUri × Json) → JsonUri → Option Json
  | [], _ => none
  | (u, s) :: tl, key => if u = key then some s else uriLookup tl key

/-- Closure check of the resolver constructor (json-validator.cpp:108-116):
    a reference absent from the local bindings whose base equals the
    ingestion URI's base is a missing local sub-schema (fatal). -/
def missingLocal (bnds : List (JsonUri × Json)) (id : JsonUri) :
    List JsonUri → Option JsonUri
  | [] => none
  | r :: tl =>
    if (uriLookup bnds r).isNone && decide (r.base = id.base) then some r
    else missingLocal bnds id tl

/-- References absent from the local bindings with a foreign base: the
    resolver's `undefined_refs`. -/
def externalRefs (bnds : List (JsonUri × Json)) (id : JsonUri)
    (refs : List JsonUri) : List JsonUri :=
  refs.filter fun r => (uriLookup bnds r).isNone && decide (r.base ≠ id.base)

/-- Keep the first occurrence of each URI (the C++ keeps them in a
    `std::set`; only emptiness and membership of the result matter to
    the contract proved below). -/
def dedupUris (seen : List JsonUri) : List JsonUri → List JsonUri
  | [] => []
  | u :: tl =>
    if seen.any (fun x => decide (x = u)) then dedupUris seen tl
    else u :: dedupUris (u :: seen) tl

/-- The validator's schema corpus: owned documents (`schema_store_`),
    URI→node bindings (`schema_refs_`), and the designated root
    (`root_schema_`). -/
structure Corpus where
  store : List Json
  refs : List (JsonUri × Json)
  root : Option Json

/-- `json_validator::insert_schema` (json-validator.cpp:126): resolve a
    private copy, return the unresolved external references (corpus
    untouched) when any exist, refuse colliding URIs, otherwise commit
    the rewritten document with all its bindings and set the root when
    the ingestion URI is `#`.  The C++ throws before any member is
    mutated, so every error branch returns the corpus unchanged.  The
    constructor's initial `id.derive(fid.value())` converts the `id`
    member with an unchecked `get<std::string>`, which throws on a
    non-string (the walk itself checks the type). -/
def insert_schema (c : Corpus) (input : Json) (id0 : JsonUri) :
    Corpus × Except CppErr (List JsonUri) :=
  match input.find "id" with
  | some (.str s) => insertResolved c input id0 (id0.derive s)
  | some _ => (c, .error (.typeErr "id value is not a string"))
  | none => insertResolved c input id0 id0
where
  insertResolved (c : Corpus) (input : Json) (id0 idC : JsonUri) :
      Corpus × Except CppErr (List JsonUri) :=
    let r := resolveNode input idC
    match findDup [] (r.2.1.map Prod.fst) with
    | some u => (c, .error (.invalidArg
        ("schema " ++ u.toStr ++ " already present in local resolver")))
    | none =>
      match missingLocal r.2.1 idC r.2.2 with
      | some m => (c, .error (.invalidArg
          ("sub-schema " ++ ptrStr m.frag ++ " in schema " ++ idC.toStr ++ " not found")))
      | none =>
        match (dedupUris [] (externalRefs r.2.1 idC r.2.2)).filter
            (fun u => (uriLookup c.refs u).isNone) with
        | u :: us => (c, .ok (u :: us))
        | [] =>
          match r.2.1.find? (fun b => (uriLookup c.refs b.1).isSome) with
          | some b => (c, .error (.invalidArg
              ("schema " ++ b.1.toStr ++ " already present in validator.")))
          | none =>
            ({ store := c.store ++ [r.1], refs := c.refs ++ r.2.1,
               root := if id0 = JsonUri.ofString "#" then some r.1 else c.root }, .ok [])

/-- Corpus bindings in the string-keyed form `validate` looks refs up in
    (canonical `to_string` forms, matching `json_uri` equality on the
    already-canonical rewritten `$ref` strings). -/
def corpusStrings (c : Corpus) : List (String × Json) :=
  c.refs.map fun p => (p.1.toStr, p.2)

/-- Pairs of an object node, for quantifying over `patternProperties`
    entries. -/
def jobjPairs : JObj → List (String × Json)
  | .nil => []
  | .cons k v tl => (k, v) :: jobjPairs tl

/-- Top-level keys of an instance: object keys, nothing for the other
    kinds (which have no keys to gain or lose). -/
def keysOf : Json → List String
  | .obj kvs => kvs.keys
  | _ => []

/-- Keys of `properties` entries carrying a `default` — the keys default
    insertion may add. -/
def defaultedKeys (schema : Json) : List String :=
  go (objMembers ((schema.find "properties").getD .null))
where
  go : JObj → List String
    | .nil => []
    | .cons k v tl => if (v.find "default").isSome then k :: go tl else go tl

/-- Whether an optional error is a `std::logic_error`. -/
def isLogicErr : Option CppErr → Bool
  | some (.logicErr _) => true
  | _ => false

/-- A validator stub that accepts everything, used to instantiate
    loop-level theorems at concrete inputs. -/
def idValidator : Json → Json → String → Json × Option CppErr :=
  fun a _ _ => (a, none)

/-- Context with an empty corpus, defaults off, and a never-matching
    regex predicate. -/
def ctx0 : Ctx := ⟨[], false, fun _ _ => false⟩

/-- Context with an empty corpus and default insertion enabled. -/
def ctxD : Ctx := ⟨[], true, fun _ _ => false⟩

/-- `std::regex_search` with the ECMAScript pattern `^x-` (the only
    regex any scenario uses) holds exactly on subjects beginning with
    `x-`; other patterns are not exercised. -/
def xDashSearch : String → String → Bool :=
  fun pat subj => if pat = "^x-" then "x-".data.isPrefixOf subj.data else false

/-- Context for the `patternProperties` scenario. -/
def ctxP : Ctx := ⟨[], false, xDashSearch⟩

/-- Scenario schema "Person with age" (spec section 8, scenario 1). -/
def personSchema : Json := Json.mkObj
  [("type", .str "object"),
   ("properties", Json.mkObj
     [("name", Json.mkObj [("type", .str "string")]),
      ("age", Json.mkObj
        [("type", .str "number"), ("minimum", .numU 2), ("maximum", .numU 200)])]),
   ("required", Json.mkArr [.str "name", .str "age"])]

def personGood : Json := Json.mkObj [("name", .str "Albert"), ("age", .numU 42)]

def personBad : Json := Json.mkObj [("age", .numU 42)]

/-- Scenario schema for `items`/`additionalItems` (spec section 8,
    scenario 3). -/
def itemsSchema : Json := Json.mkObj
  [("type", .str "array"),
   ("items", Json.mkArr
     [Json.mkObj [("type", .str "string")], Json.mkObj [("type", .str "number")]]),
   ("additionalItems", .bool false)]

/-- Scenario schema for `patternProperties` (spec section 8, scenario 4). -/
def patPropSchema : Json := Json.mkObj
  [("patternProperties", Json.mkObj [("^x-", Json.mkObj [("type", .str "string")])]),
   ("additionalProperties", .bool false)]

/-- Scenario schema for default insertion (spec section 8, scenario 5). -/
def defaultsSchema : Json := Json.mkObj
  [("properties", Json.mkObj
    [("width", Json.mkObj [("type", .str "integer"), ("default", .numU 20)]),
     ("height", Json.mkObj [("type", .str "integer"), ("default", .numU 10)])])]

/-- Schema whose only default value violates its own property schema. -/
def badDefaultSchema : Json := Json.mkObj
  [("properties", Json.mkObj
    [("a", Json.mkObj [("default", .numU 5), ("type", .str "string")])])]

/-- Schema whose default pushes the object past `maxProperties: 0`. -/
def maxPropsDefaultSchema : Json := Json.mkObj
  [("maxProperties", .numU 0),
   ("properties", Json.mkObj [("a", Json.mkObj [("default", .numU 5)])])]

/-- Schema whose object-valued dependency carries its own default. -/
def depDefaultSchema : Json := Json.mkObj
  [("dependencies", Json.mkObj
    [("a", Json.mkObj
      [("properties", Json.mkObj [("b", Json.mkObj [("default", .numU 5)])])])])]

/-- Schema with `maximum: 10` and `exclusiveMaximum: false`. -/
def exclFalseSchema : Json :=
  Json.mkObj [("maximum", .numU 10), ("exclusiveMaximum", .bool false)]

/-- Schema with `maximum: 10` and `exclusiveMaximum: true`. -/
def exclTrueSchema : Json :=
  Json.mkObj [("maximum", .numU 10), ("exclusiveMaximum", .bool true)]

/-- Document whose `allOf` would require a string instance. -/
def allOfDoc : Json :=
  Json.mkObj [("allOf", Json.mkArr [Json.mkObj [("type", .str "string")]])]

/-- Document that is a bare reference to `allOfDoc`'s URI. -/
def refDoc : Json := Json.mkObj [("$ref", .str "http://other/s2#")]

/-- Ingest `allOfDoc` under `http://other/s2#` into the empty corpus. -/
def ingest1 : Corpus × Except CppErr (List JsonUri) :=
  insert_schema ⟨[], [], none⟩ allOfDoc (JsonUri.ofString "http://other/s2#")

/-- Then ingest the referring document as the root. -/
def ingest2 : Corpus × Except CppErr (List JsonUri) :=
  insert_schema ingest1.1 refDoc (JsonUri.ofString "#")

/-- A schema node carrying `allOf` directly. -/
def directAllOf : Json := Json.mkObj [("allOf", Json.mkArr [])]

/-- Whether a node is an object. -/
def isObjNode : Json → Bool
  | .obj _ => true
  | _ => false

/-- List-style induction for `JObj` (its recursor is the mutual-family
    one, which the induction tactic cannot use directly); the `Json`
    values are not recursed into. -/
theorem jobjInd {motive : JObj → Prop} (hnil : motive .nil)
    (hcons : ∀ (k : String) (v : Json) (tl : JObj), motive tl → motive (.cons k v tl)) :
    ∀ o, motive o :=
  fun o =>
    @JObj.rec (fun _ => True) (fun _ => True) motive
      trivial (fun _ => trivial) (fun _ => trivial) (fun _ => trivial) (fun _ => trivial)
      (fun _ => trivial) (fun _ _ => trivial) (fun _ _ => trivial)
      trivial (fun _ _ _ _ => trivial)
      hnil (fun k v tl _ ih => hcons k v tl ih) o

/-- List-style induction for `JArr`. -/
theorem jarrInd {motive : JArr → Prop} (hnil : motive .nil)
    (hcons : ∀ (hd : Json) (tl : JArr), motive tl → motive (.cons hd tl)) :
    ∀ a, motive a :=
  fun a =>
    @JArr.rec (fun _ => True) motive (fun _ => True)
      trivial (fun _ => trivial) (fun _ => trivial) (fun _ => trivial) (fun _ => trivial)
      (fun _ => trivial) (fun _ _ => trivial) (fun _ _ => trivial)
      hnil (fun hd tl _ ih => hcons hd tl ih)
      trivial (fun _ _ _ _ _ => trivial) a

/-- Claim C1: in the "Person with age" scenario the claim expects
    `{"age":42}` to fail with a message mentioning that `name` is
    required and `{"name":"Albert","age":42}` to succeed.  The code does
    neither: an unsigned instance is dispatched to `validate_unsigned`,
    whose type check compares the schema's `type` `"number"` against the
    tag `"integer"` and throws, so both instances fail with the type
    mismatch `number is not a integer for root.age` (the required check
    is never reached, and the conforming instance is rejected). -/
theorem person_scenario_rejects_integer_age :
    validate ctx0 20 personGood personSchema "root"
      = (personGood, some (.invalidArg "number is not a integer for root.age"))
    ∧ validate ctx0 20 personBad personSchema "root"
      = (personBad, some (.invalidArg "number is not a integer for root.age")) :=
  ⟨rfl, rfl⟩

/-- Claim C5: for the scenario schema
    `{type:"array", items:[{type:"string"},{type:"number"}], additionalItems:false}`
    the claim expects `["a",1]` to validate.  It does not: element `1`
    (unsigned) is checked against the tag `"integer"` while `items[1]`
    says `"number"`, so the code rejects it; `["a",1,true]` and
    `[1,"a"]` fail as the claim says, but with the same type-dispatch
    messages. -/
theorem array_items_scenario_code_behavior :
    validate ctx0 20 (Json.mkArr [.str "a", .numU 1]) itemsSchema "root"
      = (Json.mkArr [.str "a", .numU 1],
          some (.invalidArg "number is not a integer for root[1]"))
    ∧ validate ctx0 20 (Json.mkArr [.str "a", .numU 1, .bool true]) itemsSchema "root"
      = (Json.mkArr [.str "a", .numU 1, .bool true],
          some (.invalidArg "number is not a integer for root[1]"))
    ∧ validate ctx0 20 (Json.mkArr [.numU 1, .str "a"]) itemsSchema "root"
      = (Json.mkArr [.numU 1, .str "a"],
          some (.invalidArg "string is not a integer for root[0]")) :=
  ⟨rfl, rfl, rfl⟩

/-- Claim C9: defaults are inserted before the cardinality checks and
    before per-key validation, and inserted values are themselves
    validated.  Witnessed concretely: with defaults enabled the empty
    object fails against `badDefaultSchema` because the inserted default
    `5` violates its own `type:"string"`, and fails against
    `maxPropsDefaultSchema` because the inserted key pushes the count
    past `maxProperties: 0`; with defaults disabled both validations
    succeed, so each failure is caused solely by the key the validator
    itself inserted. -/
theorem defaults_inserted_before_checks_and_validated :
    validate ctxD 20 (.obj .nil) badDefaultSchema "root"
      = (Json.mkObj [("a", .numU 5)],
          some (.invalidArg "string is not a integer for root.a"))
    ∧ validate ctx0 20 (.obj .nil) badDefaultSchema "root" = (.obj .nil, none)
    ∧ validate ctxD 20 (.obj .nil) maxPropsDefaultSchema "root"
      = (Json.mkObj [("a", .numU 5)],
          some (.outOfRange "root has too many properties."))
    ∧ validate ctx0 20 (.obj .nil) maxPropsDefaultSchema "root" = (.obj .nil, none) :=
  ⟨rfl, rfl, rfl, rfl⟩

/-- Claim C10: an array shorter than `minItems` is rejected with the
    message `<name> has too many items.` — the identical wording the
    `maxItems` check uses (json-validator.cpp:327 copies the string from
    line 321) — rather than a too-few-items wording.  Stated for any
    recursive validator `v`, any array, and any schema whose type check
    passes and which has no `maxItems`. -/
theorem minItems_reports_maxItems_wording
    (v : Json → Json → String → Json × Option CppErr)
    (xs : JArr) (schema : Json) (name : String) (mv : Json) (q : Rat)
    (htype : validate_type schema "array" name = none)
    (hmax : schema.find "maxItems" = none)
    (hmin : schema.find "minItems" = some mv)
    (hq : numVal mv = some q)
    (hlen : (xs.length : Rat) < q) :
    validate_array v xs schema name
      = (xs, some (.outOfRange (name ++ " has too many items."))) := by
  have h1 : maxItemsCheck xs.length schema name = none := by
    unfold maxItemsCheck; rw [hmax]
  have h2 : minItemsCheck xs.length schema name
      = some (.outOfRange (name ++ " has too many items.")) := by
    simp only [minItemsCheck, hmin, hq, if_pos hlen]
  unfold validate_array
  rw [htype, h1, h2]

theorem minItems_reports_maxItems_wording_witness :
    validate_array idValidator .nil (Json.mkObj [("minItems", .numU 2)]) "root"
      = (.nil, some (.outOfRange "root has too many items.")) :=
  minItems_reports_maxItems_wording idValidator .nil
    (Json.mkObj [("minItems", .numU 2)]) "root" (.numU 2) 2
    rfl rfl rfl rfl (by decide)

/-- Claim C3, counterexample: the claim says that when the sibling
    `exclusiveMaximum` is present but boolean `false`, the inclusive
    bound applies, so `10` against `{maximum:10, exclusiveMaximum:false}`
    should validate.  The code only tests the *presence* of the sibling
    (json-validator.cpp:267) and rejects `10`. -/
theorem exclusiveMaximum_false_still_exclusive :
    validate_numeric (.numU 10) exclFalseSchema "root"
      = some (.outOfRange "root exceeds maximum of ...") :=
  rfl

/-- Claim C3, amended: for a numeric instance against a schema carrying
    `maximum M` (and no `multipleOf` or `minimum`), validation fails iff
    value > M when `exclusiveMaximum` is absent, and iff value ≥ M when
    `exclusiveMaximum` is present *with any value whatsoever* — presence
    alone selects the exclusive form; symmetrically for `minimum m` and
    `exclusiveMinimum` (fails iff value < m, resp. value ≤ m). -/
theorem numeric_bounds_presence_semantics :
    (∀ (inst schema : Json) (name : String) (q M : Rat) (mv : Json),
      numVal inst = some q →
      schema.find "multipleOf" = none →
      schema.find "minimum" = none →
      schema.find "maximum" = some mv →
      numVal mv = some M →
      (((schema.find "exclusiveMaximum").isSome →
          (validate_numeric inst schema name ≠ none ↔ q ≥ M)) ∧
        (schema.find "exclusiveMaximum" = none →
          (validate_numeric inst schema name ≠ none ↔ q > M))))
    ∧ (∀ (inst schema : Json) (name : String) (q m : Rat) (mv : Json),
      numVal inst = some q →
      schema.find "multipleOf" = none →
      schema.find "maximum" = none →
      schema.find "minimum" = some mv →
      numVal mv = some m →
      (((schema.find "exclusiveMinimum").isSome →
          (validate_numeric inst schema name ≠ none ↔ q ≤ m)) ∧
        (schema.find "exclusiveMinimum" = none →
          (validate_numeric inst schema name ≠ none ↔ q < m)))) := by
  constructor
  · intro inst schema name q M mv hq hmul hmin hmax hM
    have hvn : validate_numeric inst schema name = maximumCheck q schema name := by
      simp only [validate_numeric, hq, multipleOfCheck, hmul]
      cases h : maximumCheck q schema name with
      | some e => rfl
      | none => simp only [minimumCheck, hmin]
    constructor
    · intro hex
      rw [hvn]
      simp only [maximumCheck, hmax, hM, hex, if_true]
      by_cases hc : q ≥ M
      · simp [hc, ge_iff_le, le_of_lt]
      · simp [hc]
    · intro hex
      rw [hvn]
      simp only [maximumCheck, hmax, hM, hex, Option.isSome_none, Bool.false_eq_true,
        if_false]
      by_cases hc : q > M
      · simp [hc]
      · simp [hc]
  · intro inst schema name q m mv hq hmul hmax hmin hm
    have hvn : validate_numeric inst schema name = minimumCheck q schema name := by
      simp only [validate_numeric, hq, multipleOfCheck, hmul, maximumCheck, hmax]
    constructor
    · intro hex
      rw [hvn]
      simp only [minimumCheck, hmin, hm, hex, if_true]
      by_cases hc : q ≤ m
      · simp [hc]
      · simp [hc]
    · intro hex
      rw [hvn]
      simp only [minimumCheck, hmin, hm, hex, Option.isSome_none, Bool.false_eq_true,
        if_false]
      by_cases hc : q < m
      · simp [hc]
      · simp [hc]

theorem numeric_bounds_presence_semantics_witness :
    validate_numeric (.numU 10) exclTrueSchema "n" ≠ none
    ∧ validate_numeric (.numU 10)
        (Json.mkObj [("maximum", .numU 10)]) "n" = none := by
  constructor
  · exact ((numeric_bounds_presence_semantics.1 (.numU 10) exclTrueSchema "n" 10 10
      (.numU 10) rfl rfl rfl rfl rfl).1 (by decide)).mpr (by decide)
  · by_contra hne
    have h10 : ¬ ((10 : Rat) > 10) := by decide
    exact h10 (((numeric_bounds_presence_semantics.1 (.numU 10)
      (Json.mkObj [("maximum", .numU 10)]) "n" 10 10 (.numU 10)
      rfl rfl rfl rfl rfl).2 rfl).mp hne)

/-- Claim C2, counterexample: ingesting a document whose `allOf` demands
    a string under `http://other/s2#` and then a root document that is a
    bare `$ref` to it, the `$ref` chase replaces the schema node by the
    `allOf`-carrying node, yet validating the number `5` raises no
    "not implemented" logic error and reports success — the combinator
    check ran only on the pre-chase node (json-validator.cpp:541-544),
    so `allOf` behind a `$ref` silently passes an instance that violates
    it. -/
theorem combinators_behind_ref_escape_check :
    ingest1.2 = .ok []
    ∧ ingest2.2 = .ok []
    ∧ chaseRef (corpusStrings ingest2.1) ((corpusStrings ingest2.1).length + 1)
        ((ingest2.1.root).getD .null) = .ok allOfDoc
    ∧ (allOfDoc.find "allOf").isSome = true
    ∧ validateTop (corpusStrings ingest2.1) ingest2.1.root false
        (fun _ _ => false) 10 (.numU 5) = (.numU 5, none) :=
  ⟨rfl, rfl, rfl, rfl, rfl⟩

/-- Claim C2, amended: the `allOf`/`anyOf`/`oneOf`/`not` refusal applies
    to the schema node *as written, before `$ref` chasing*: whenever the
    node passed to `validate` itself carries one of the four keywords,
    the call returns the fatal `std::logic_error` produced by the
    not-implemented check, for every instance and any remaining fuel. -/
theorem combinators_checked_before_ref_chase (ctx : Ctx) (fuel : Nat)
    (inst schema : Json) (name : String)
    (hof : (schema.find "allOf").isSome = true ∨ (schema.find "anyOf").isSome = true
      ∨ (schema.find "oneOf").isSome = true ∨ (schema.find "not").isSome = true) :
    validate ctx (fuel + 1) inst schema name = (inst, nyiCombinators schema)
    ∧ isLogicErr (nyiCombinators schema) = true := by
  have hl : isLogicErr (nyiCombinators schema) = true := by
    by_cases h1 : (schema.find "allOf").isSome
    · simp [nyiCombinators, not_yet_implemented, h1, isLogicErr]
    · by_cases h2 : (schema.find "anyOf").isSome
      · simp [nyiCombinators, not_yet_implemented, h1, h2, isLogicErr]
      · by_cases h3 : (schema.find "oneOf").isSome
        · simp [nyiCombinators, not_yet_implemented, h1, h2, h3, isLogicErr]
        · by_cases h4 : (schema.find "not").isSome
          · simp [nyiCombinators, not_yet_implemented, h1, h2, h3, h4, isLogicErr]
          · rcases hof with h | h | h | h <;> simp [h] at h1 h2 h3 h4
  refine ⟨?_, hl⟩
  cases hn : nyiCombinators schema with
  | none => rw [hn] at hl; simp [isLogicErr] at hl
  | some e => simp only [validate, hn]

theorem combinators_checked_before_ref_chase_witness :
    validate ctx0 1 .null directAllOf "root" = (.null, nyiCombinators directAllOf)
    ∧ isLogicErr (nyiCombinators directAllOf) = true :=
  combinators_checked_before_ref_chase ctx0 0 .null directAllOf "root"
    (Or.inl (by decide))

/-- When no `patternProperties` entry matches the key, the fold leaves
    the value and the matched flag untouched and reports no error. -/
theorem patFold_nomatch (v : Json → Json → String → Json × Option CppErr)
    (rs : String → String → Bool) (cn k : String) (pp : JObj)
    (h : ∀ p ∈ jobjPairs pp, rs p.1 k = false) :
    ∀ (val : Json) (m : Bool), patFold v rs cn k pp val m = (val, m, none) := by
  induction pp using jobjInd with
  | hnil => intro val m; rfl
  | hcons pk ps tl ih =>
    intro val m
    have hpk : rs pk k = false := h (pk, ps) (by simp [jobjPairs])
    simp only [patFold, hpk, Bool.false_eq_true, if_false]
    exact ih (fun p hp => h p (by simp [jobjPairs]; exact Or.inr hp)) val m

/-- Claim C6: for an instance key `k` not named in `properties`, every
    matching `patternProperties` entry applies (the fold threads the
    value through each match) and a single match marks the key handled,
    making the result independent of the `additionalProperties` mode;
    with no match, `additionalProperties` decides: `true` accepts,
    `false` rejects with the unknown-property error, and a schema
    validates the value.  The three scenario cases for
    `{patternProperties:{"^x-":{type:"string"}}, additionalProperties:false}`
    behave as claimed. -/
theorem patternProperties_handling :
    (∀ (v : Json → Json → String → Json × Option CppErr) (rs : String → String → Bool)
        (props patP : Json) (name k : String) (val : Json),
      props.find k = none →
      (∀ p ∈ jobjPairs (objMembers patP), rs p.1 k = false) →
      (objChild v rs props patP .T name k val = (val, none)
        ∧ objChild v rs props patP .F name k val
            = (val, some (.invalidArg
                ("unknown property \x27" ++ k ++ "\x27 in object \x27" ++ name ++ "\x27")))
        ∧ ∀ s, objChild v rs props patP (.O s) name k val = v val s (name ++ "." ++ k)))
    ∧ (∀ (v : Json → Json → String → Json × Option CppErr) (rs : String → String → Bool)
        (props patP : Json) (name k : String) (val val' : Json),
      props.find k = none →
      patFold v rs (name ++ "." ++ k) k (objMembers patP) val false = (val', true, none) →
      ∀ ap, objChild v rs props patP ap name k val = (val', none))
    ∧ validate ctxP 20 (Json.mkObj [("x-foo", .str "bar")]) patPropSchema "root"
        = (Json.mkObj [("x-foo", .str "bar")], none)
    ∧ validate ctxP 20 (Json.mkObj [("x-foo", .numU 1)]) patPropSchema "root"
        = (Json.mkObj [("x-foo", .numU 1)],
            some (.invalidArg "string is not a integer for root.x-foo"))
    ∧ validate ctxP 20 (Json.mkObj [("y", .str "z")]) patPropSchema "root"
        = (Json.mkObj [("y", .str "z")],
            some (.invalidArg "unknown property \x27y\x27 in object \x27root\x27")) := by
  refine ⟨?_, ?_, rfl, rfl, rfl⟩
  · intro v rs props patP name k val hfind hnm
    have hpf := patFold_nomatch v rs (name ++ "." ++ k) k (objMembers patP) hnm val false
    refine ⟨?_, ?_, fun s => ?_⟩ <;> simp only [objChild, hfind, hpf]
  · intro v rs props patP name k val val' hfind hpf ap
    simp only [objChild, hfind, hpf]

theorem patternProperties_handling_witness :
    objChild idValidator xDashSearch .null
        (Json.mkObj [("^x-", Json.mkObj [("type", .str "string")])])
        .F "root" "y" (.str "z")
      = (.str "z",
          some (.invalidArg "unknown property \x27y\x27 in object \x27root\x27")) :=
  (patternProperties_handling.1 idValidator xDashSearch .null
    (Json.mkObj [("^x-", Json.mkObj [("type", .str "string")])]) "root" "y" (.str "z")
    rfl (by decide)).2.1

/-- Trichotomy of the committed part of an ingestion (after the
    constructor's initial `id` derivation). -/
theorem insertResolved_tri (c : Corpus) (input : Json) (id0 idC : JsonUri) :
    (∃ u us, insert_schema.insertResolved c input id0 idC = (c, .ok (u :: us)))
    ∨ (∃ e, insert_schema.insertResolved c input id0 idC = (c, .error e))
    ∨ (∃ doc bnds, insert_schema.insertResolved c input id0 idC
        = ({ store := c.store ++ [doc], refs := c.refs ++ bnds,
             root := if id0 = JsonUri.ofString "#" then some doc else c.root }, .ok [])) := by
  unfold insert_schema.insertResolved
  cases hd : findDup [] ((resolveNode input idC).2.1.map Prod.fst) with
  | some u => exact Or.inr (Or.inl ⟨_, by simp only [hd]; rfl⟩)
  | none =>
    cases hm : missingLocal (resolveNode input idC).2.1 idC (resolveNode input idC).2.2 with
    | some m => exact Or.inr (Or.inl ⟨_, by simp only [hd, hm]; rfl⟩)
    | none =>
      cases hu : (dedupUris [] (externalRefs (resolveNode input idC).2.1 idC
          (resolveNode input idC).2.2)).filter
          (fun u => (uriLookup c.refs u).isNone) with
      | cons u us => exact Or.inl ⟨u, us, by simp only [hd, hm, hu]⟩
      | nil =>
        cases hc : (resolveNode input idC).2.1.find? (fun b => (uriLookup c.refs b.1).isSome) with
        | some b => exact Or.inr (Or.inl ⟨_, by simp only [hd, hm, hu, hc]; rfl⟩)
        | none =>
          exact Or.inr (Or.inr ⟨(resolveNode input idC).1, (resolveNode input idC).2.1,
            by simp only [hd, hm, hu, hc]⟩)

/-- Claim C4: every `insert_schema(schema, uri)` call has exactly one of
    three outcomes: (a) it returns a non-empty set of unresolved external
    references with the corpus unchanged; (b) it raises an error (URI
    already bound in the corpus, duplicate local sub-schema URI, missing
    local sub-schema, or a malformed `id`) with the corpus unchanged —
    every error branch of the source throws before any member is
    mutated; or (c) it commits the document together with all its
    URI-to-node bindings, returns the empty set, and sets the root
    exactly when the ingestion URI equals `#`. -/
theorem insert_schema_trichotomy (c : Corpus) (input : Json) (id : JsonUri) :
    (∃ u us, insert_schema c input id = (c, .ok (u :: us)))
    ∨ (∃ e, insert_schema c input id = (c, .error e))
    ∨ (∃ doc bnds, insert_schema c input id
        = ({ store := c.store ++ [doc], refs := c.refs ++ bnds,
             root := if id = JsonUri.ofString "#" then some doc else c.root }, .ok [])) := by
  unfold insert_schema
  cases hf : input.find "id" with
  | none => exact insertResolved_tri c input id id
  | some v =>
    cases v with
    | str s => exact insertResolved_tri c input id (id.derive s)
    | null => exact Or.inr (Or.inl ⟨_, rfl⟩)
    | bool b => exact Or.inr (Or.inl ⟨_, rfl⟩)
    | numU n => exact Or.inr (Or.inl ⟨_, rfl⟩)
    | numI i => exact Or.inr (Or.inl ⟨_, rfl⟩)
    | numF q => exact Or.inr (Or.inl ⟨_, rfl⟩)
    | arr xs => exact Or.inr (Or.inl ⟨_, rfl⟩)
    | obj kvs => exact Or.inr (Or.inl ⟨_, rfl⟩)

/-- If the recursive validator returns its instance unchanged, the
    `patternProperties` fold does too. -/
theorem patFold_fst (v : Json → Json → String → Json × Option CppErr)
    (hv : ∀ a b c, (v a b c).1 = a) (rs : String → String → Bool)
    (cn k : String) (pp : JObj) :
    ∀ (val : Json) (m : Bool), (patFold v rs cn k pp val m).1 = val := by
  induction pp using jobjInd with
  | hnil => intro val m; rfl
  | hcons pk ps tl ih =>
    intro val m
    simp only [patFold]
    by_cases hr : rs pk k
    · simp only [hr, if_true]
      cases hvv : v val ps cn with
      | mk val' e =>
        have hval : val' = val := by
          have := hv val ps cn; rw [hvv] at this; exact this
        cases e with
        | some err => simpa using hval
        | none => simpa [ih] using hval
    · simp only [hr, if_false]
      exact ih val m

/-- If the recursive validator returns its instance unchanged, handling
    one object key returns the value unchanged. -/
theorem objChild_fst (v : Json → Json → String → Json × Option CppErr)
    (hv : ∀ a b c, (v a b c).1 = a) (rs : String → String → Bool)
    (props patP : Json) (ap : APMode) (name k : String) (val : Json) :
    (objChild v rs props patP ap name k val).1 = val := by
  unfold objChild
  cases hfk : props.find k with
  | some ps => exact hv val ps (name ++ "." ++ k)
  | none =>
    cases hpf : patFold v rs (name ++ "." ++ k) k (objMembers patP) val false with
    | mk val' rest =>
      obtain ⟨m, e⟩ := rest
      have hval : val' = val := by
        have h := patFold_fst v hv rs (name ++ "." ++ k) k (objMembers patP) val false
        rw [hpf] at h; exact h
      subst hval
      cases m with
      | true => cases e with
        | some err => rfl
        | none => rfl
      | false => cases e with
        | some err => rfl
        | none =>
          cases ap with
          | T => rfl
          | F => rfl
          | O s => exact hv val' s (name ++ "." ++ k)

/-- If the recursive validator returns its instance unchanged, the
    per-key object loop returns the members unchanged. -/
theorem childLoop_fst (v : Json → Json → String → Json × Option CppErr)
    (hv : ∀ a b c, (v a b c).1 = a) (rs : String → String → Bool)
    (props patP : Json) (ap : APMode) (name : String) :
    ∀ kvs : JObj, (childLoop v rs props patP ap name kvs).1 = kvs := by
  intro kvs
  induction kvs using jobjInd with
  | hnil => rfl
  | hcons k val tl ih =>
    simp only [childLoop]
    cases hoc : objChild v rs props patP ap name k val with
    | mk val' e =>
      have hval : val' = val := by
        have h := objChild_fst v hv rs props patP ap name k val
        rw [hoc] at h; exact h
      subst hval
      cases e with
      | some err => rfl
      | none => exact congrArg (JObj.cons k val') ih

/-- If the recursive validator returns its instance unchanged, the array
    element loop returns the elements unchanged. -/
theorem arrayLoop_fst (v : Json → Json → String → Json × Option CppErr)
    (hv : ∀ a b c, (v a b c).1 = a) (items addItems : Json) (name : String) :
    ∀ (xs : JArr) (i : Nat), (arrayLoop v items addItems name i xs).1 = xs := by
  intro xs
  induction xs using jarrInd with
  | hnil => intro i; rfl
  | hcons value rest ih =>
    intro i
    simp only [arrayLoop]
    cases items with
    | arr its =>
      dsimp only
      cases hg : its.get? i with
      | some si =>
        dsimp only
        cases hvv : v value si (name ++ "[" ++ natStr i ++ "]") with
        | mk value' e =>
          have hval : value' = value := by
            have h := hv value si (name ++ "[" ++ natStr i ++ "]"); rw [hvv] at h; exact h
          subst hval
          cases e with
          | some err => rfl
          | none => exact congrArg (JArr.cons value') (ih (i + 1))
      | none =>
        dsimp only
        cases addItems with
        | obj kvs2 =>
          dsimp only
          cases hvv : v value (.obj kvs2) (name ++ "[" ++ natStr i ++ "]") with
          | mk value' e =>
            have hval : value' = value := by
              have h := hv value (.obj kvs2) (name ++ "[" ++ natStr i ++ "]")
              rw [hvv] at h; exact h
            subst hval
            cases e with
            | some err => rfl
            | none => exact congrArg (JArr.cons value') (ih (i + 1))
        | bool b => cases b <;> rfl
        | null => exact congrArg (JArr.cons value) (ih (i + 1))
        | numU n => exact congrArg (JArr.cons value) (ih (i + 1))
        | numI n => exact congrArg (JArr.cons value) (ih (i + 1))
        | numF q => exact congrArg (JArr.cons value) (ih (i + 1))
        | str s => exact congrArg (JArr.cons value) (ih (i + 1))
        | arr ys => exact congrArg (JArr.cons value) (ih (i + 1))
    | obj kvs2 =>
      dsimp only
      cases hvv : v value (.obj kvs2) (name ++ "[" ++ natStr i ++ "]") with
      | mk value' e =>
        have hval : value' = value := by
          have h := hv value (.obj kvs2) (name ++ "[" ++ natStr i ++ "]")
          rw [hvv] at h; exact h
        subst hval
        cases e with
        | some err => rfl
        | none => exact congrArg (JArr.cons value') (ih (i + 1))
    | null => exact congrArg (JArr.cons value) (ih (i + 1))
    | bool b => exact congrArg (JArr.cons value) (ih (i + 1))
    | numU n => exact congrArg (JArr.cons value) (ih (i + 1))
    | numI n => exact congrArg (JArr.cons value) (ih (i + 1))
    | numF q => exact congrArg (JArr.cons value) (ih (i + 1))
    | str s => exact congrArg (JArr.cons value) (ih (i + 1))

/-- If the recursive validator returns its instance unchanged, the
    `dependencies` loop returns the members unchanged. -/
theorem depsLoop_fst (v : Json → Json → String → Json × Option CppErr)
    (hv : ∀ a b c, (v a b c).1 = a) (name : String) :
    ∀ (dkvs kvs : JObj), (depsLoop v name dkvs kvs).1 = kvs := by
  intro dkvs
  induction dkvs using jobjInd with
  | hnil => intro kvs; rfl
  | hcons dk dv tl ih =>
    intro kvs
    simp only [depsLoop]
    by_cases hl : (kvs.lookup dk).isNone = true
    · rw [if_pos hl]; exact ih kvs
    · rw [if_neg hl]
      cases dv with
      | obj dkvs2 =>
        dsimp only
        cases hvv : v (.obj kvs) (.obj dkvs2) (name ++ ".dependency-of-" ++ dk) with
        | mk j e =>
          have hj : j = .obj kvs := by
            have h := hv (.obj kvs) (.obj dkvs2) (name ++ ".dependency-of-" ++ dk)
            rw [hvv] at h; exact h
          subst hj
          cases e with
          | none => exact ih kvs
          | some err => rfl
      | arr els =>
        dsimp only
        cases hda : depArrayCheck kvs (name ++ ".dependency-of-" ++ dk) els.toList with
        | some e => rfl
        | none => exact ih kvs
      | null => exact ih kvs
      | bool b => exact ih kvs
      | numU n => exact ih kvs
      | numI n => exact ih kvs
      | numF q => exact ih kvs
      | str s => exact ih kvs

/-- With default insertion off, `validate_object` returns the members
    unchanged, whatever else it reports. -/
theorem validate_object_fst (v : Json → Json → String → Json × Option CppErr)
    (hv : ∀ a b c, (v a b c).1 = a) (rs : String → String → Bool)
    (kvs : JObj) (schema : Json) (name : String) :
    (validate_object v false rs kvs schema name).1 = kvs := by
  unfold validate_object
  cases hto : validate_type schema "object" name with
  | some e => rfl
  | none =>
    dsimp only
    cases hmx : maxPropertiesCheck kvs.length schema name with
    | some e => rfl
    | none =>
      dsimp only
      cases hmn : minPropertiesCheck kvs.length schema name with
      | some e => rfl
      | none =>
        dsimp only
        cases hcl : childLoop v rs ((schema.find "properties").getD .null)
            ((schema.find "patternProperties").getD .null) (apModeOf schema) name kvs with
        | mk kvs2 e =>
          have hk2 : kvs2 = kvs := by
            have h := childLoop_fst v hv rs ((schema.find "properties").getD .null)
              ((schema.find "patternProperties").getD .null) (apModeOf schema) name kvs
            rw [hcl] at h; exact h
          subst hk2
          cases e with
          | some err => rfl
          | none =>
            dsimp only
            cases hrq : requiredPart kvs2 schema name with
            | some e => rfl
            | none =>
              dsimp only
              unfold depsPart
              cases hdp : schema.find "dependencies" with
              | none => rfl
              | some dv =>
                cases dv with
                | obj dkvs => exact depsLoop_fst v hv name dkvs kvs2
                | null => rfl
                | bool b => rfl
                | numU n => rfl
                | numI n => rfl
                | numF q => rfl
                | str s => rfl
                | arr xs => rfl

/-- If the recursive validator returns its instance unchanged,
    `validate_array` returns the elements unchanged. -/
theorem validate_array_fst (v : Json → Json → String → Json × Option CppErr)
    (hv : ∀ a b c, (v a b c).1 = a) (xs : JArr) (schema : Json) (name : String) :
    (validate_array v xs schema name).1 = xs := by
  unfold validate_array
  cases validate_type schema "array" name with
  | some e => rfl
  | none =>
    dsimp only
    cases maxItemsCheck xs.length schema name with
    | some e => rfl
    | none =>
      dsimp only
      cases minItemsCheck xs.length schema name with
      | some e => rfl
      | none =>
        dsimp only
        cases uniqueItemsCheck xs.toList schema name with
        | some e => rfl
        | none =>
          exact arrayLoop_fst v hv ((schema.find "items").getD .null)
            ((schema.find "additionalItems").getD .null) name xs 0

/-- With default insertion off, `validate` never changes the instance:
    the only write the validator performs is default insertion, and every
    other step merely replaces sub-values by their own validation
    results, which are unchanged by induction on the recursion depth. -/
theorem validate_fst (corpus : List (String × Json)) (rs : String → String → Bool) :
    ∀ (fuel : Nat) (inst schema : Json) (name : String),
      (validate ⟨corpus, false, rs⟩ fuel inst schema name).1 = inst := by
  intro fuel
  induction fuel with
  | zero => intro inst schema name; rfl
  | succ fuel ih =>
    intro inst schema name
    simp only [validate]
    cases nyiCombinators schema with
    | some e => rfl
    | none =>
      dsimp only
      cases chaseRef corpus (corpus.length + 1) schema with
      | error e => rfl
      | ok schema2 =>
        dsimp only
        cases validate_enum inst schema2 name with
        | some e => rfl
        | none =>
          dsimp only
          cases inst with
          | obj kvs =>
            exact congrArg Json.obj
              (validate_object_fst (fun i s n => validate ⟨corpus, false, rs⟩ fuel i s n)
                (fun a b c => ih a b c) rs kvs schema2 name)
          | arr xs =>
            exact congrArg Json.arr
              (validate_array_fst (fun i s n => validate ⟨corpus, false, rs⟩ fuel i s n)
                (fun a b c => ih a b c) xs schema2 name)
          | null => rfl
          | bool b => rfl
          | numU n => rfl
          | numI n => rfl
          | numF q => rfl
          | str s => rfl

/-- Claim C8: if `validate(x)` is run with default-value insertion
    disabled and succeeds, `x` is unchanged afterwards (in this
    functional model the returned instance equals the input; the proof
    goes through `validate_fst`, which shows the stronger fact that with
    defaults off the instance is returned unchanged even on failure). -/
theorem validate_defaults_off_preserves_instance
    (corpus : List (String × Json)) (rs : String → String → Bool)
    (fuel : Nat) (inst schema : Json) (name : String)
    (hok : (validate ⟨corpus, false, rs⟩ fuel inst schema name).2 = none) :
    (validate ⟨corpus, false, rs⟩ fuel inst schema name).1 = inst :=
  validate_fst corpus rs fuel inst schema name

theorem validate_defaults_off_preserves_instance_witness :
    (validate ⟨[], false, fun _ _ => false⟩ 20 personGood
        (Json.mkObj [("type", .str "object")]) "root").2 = none
    ∧ (validate ⟨[], false, fun _ _ => false⟩ 20 personGood
        (Json.mkObj [("type", .str "object")]) "root").1 = personGood :=
  ⟨rfl, validate_defaults_off_preserves_instance [] (fun _ _ => false) 20 personGood
    (Json.mkObj [("type", .str "object")]) "root" rfl⟩

/-- A key looks up successfully exactly when it is among the keys. -/
theorem lookup_isSome_iff_mem (k : String) :
    ∀ kvs : JObj, (kvs.lookup k).isSome = true ↔ k ∈ kvs.keys := by
  intro kvs
  induction kvs using jobjInd with
  | hnil => simp [JObj.lookup, JObj.keys]
  | hcons k' v tl ih =>
    by_cases h : k' = k
    · subst h; simp [JObj.lookup, JObj.keys]
    · simp only [JObj.lookup, JObj.keys, if_neg h, List.mem_cons, ih]
      constructor
      · exact Or.inr
      · rintro (h' | h')
        · exact absurd h'.symm h
        · exact h'

/-- Membership in the keys after a map insertion. -/
theorem insert_mem_keys (k : String) (v : Json) (key : String) :
    ∀ kvs : JObj, key ∈ (kvs.insert k v).keys ↔ key = k ∨ key ∈ kvs.keys := by
  intro kvs
  induction kvs using jobjInd with
  | hnil => simp [JObj.insert, JObj.keys]
  | hcons k' v' tl ih =>
    simp only [JObj.insert]
    by_cases hlt : strLt k k' = true
    · simp [hlt, JObj.keys, List.mem_cons]
    · by_cases heq : k = k'
      · subst heq
        simp only [hlt, Bool.false_eq_true, if_false, if_pos rfl]
        simp [JObj.keys, List.mem_cons]
      · simp only [hlt, Bool.false_eq_true, if_false, if_neg heq]
        simp only [JObj.keys, List.mem_cons, ih]
        tauto

/-- Keys present after default insertion: the old keys together with the
    defaulted property names. -/
theorem defaultsInsert_mem_keys (key : String) :
    ∀ (props kvs : JObj),
      key ∈ (defaultsInsert props kvs).keys
        ↔ key ∈ kvs.keys ∨ key ∈ defaultedKeys.go props := by
  intro props
  induction props using jobjInd with
  | hnil => intro kvs; simp [defaultsInsert, defaultedKeys.go]
  | hcons pk ps tl ih =>
    intro kvs
    simp only [defaultsInsert, defaultedKeys.go]
    cases hd : ps.find "default" with
    | none =>
      simp only [hd, Option.isSome_none, Bool.false_eq_true, if_false]
      exact ih kvs
    | some d =>
      simp only [hd, Option.isSome_some, if_true]
      cases hl : kvs.lookup pk with
      | some w =>
        have hpk : pk ∈ kvs.keys := by
          rw [← lookup_isSome_iff_mem]; rw [hl]; rfl
        rw [ih kvs]
        constructor
        · rintro (h | h)
          · exact Or.inl h
          · exact Or.inr (List.mem_cons_of_mem pk h)
        · rintro (h | h)
          · exact Or.inl h
          · rcases List.mem_cons.mp h with h' | h'
            · subst h'; exact Or.inl hpk
            · exact Or.inr h'
      | none =>
        rw [ih (kvs.insert pk d)]
        rw [insert_mem_keys]
        constructor
        · rintro ((h | h) | h)
          · exact Or.inr (by rw [h]; exact List.mem_cons_self pk _)
          · exact Or.inl h
          · exact Or.inr (List.mem_cons_of_mem pk h)
        · rintro (h | h)
          · exact Or.inl (Or.inr h)
          · rcases List.mem_cons.mp h with h' | h'
            · exact Or.inl (Or.inl h')
            · exact Or.inr h'

/-- The per-key loop never changes which keys are present. -/
theorem childLoop_keys (v : Json → Json → String → Json × Option CppErr)
    (rs : String → String → Bool) (props patP : Json) (ap : APMode) (name : String) :
    ∀ kvs : JObj, (childLoop v rs props patP ap name kvs).1.keys = kvs.keys := by
  intro kvs
  induction kvs using jobjInd with
  | hnil => rfl
  | hcons k val tl ih =>
    simp only [childLoop]
    cases objChild v rs props patP ap name k val with
    | mk val' e =>
      cases e with
      | some err => rfl
      | none => exact congrArg (fun l => k :: l) ih

/-- If the recursive validator never loses a top-level key of its
    instance, neither does the `dependencies` loop. -/
theorem depsLoop_mono (v : Json → Json → String → Json × Option CppErr)
    (hm : ∀ i s n key, key ∈ keysOf i → key ∈ keysOf (v i s n).1)
    (name : String) :
    ∀ (dkvs kvs : JObj) (key : String),
      key ∈ kvs.keys → key ∈ (depsLoop v name dkvs kvs).1.keys := by
  intro dkvs
  induction dkvs using jobjInd with
  | hnil => intro kvs key hk; exact hk
  | hcons dk dv tl ih =>
    intro kvs key hk
    simp only [depsLoop]
    by_cases hl : (kvs.lookup dk).isNone = true
    · rw [if_pos hl]; exact ih kvs key hk
    · rw [if_neg hl]
      cases dv with
      | obj dkvs2 =>
        dsimp only
        cases hvv : v (.obj kvs) (.obj dkvs2) (name ++ ".dependency-of-" ++ dk) with
        | mk j e =>
          have hj : key ∈ keysOf j := by
            have h := hm (.obj kvs) (.obj dkvs2) (name ++ ".dependency-of-" ++ dk) key
              (by simpa [keysOf] using hk)
            rw [hvv] at h; exact h
          cases j with
          | obj kvs2 =>
            cases e with
            | none => exact ih kvs2 key (by simpa [keysOf] using hj)
            | some err => simpa [keysOf] using hj
          | null => cases e <;> exact hk
          | bool b => cases e <;> exact hk
          | numU n => cases e <;> exact hk
          | numI n => cases e <;> exact hk
          | numF q => cases e <;> exact hk
          | str s => cases e <;> exact hk
          | arr xs => cases e <;> exact hk
      | arr els =>
        dsimp only
        cases depArrayCheck kvs (name ++ ".dependency-of-" ++ dk) els.toList with
        | some e => exact hk
        | none => exact ih kvs key hk
      | null => exact ih kvs key hk
      | bool b => exact ih kvs key hk
      | numU n => exact ih kvs key hk
      | numI n => exact ih kvs key hk
      | numF q => exact ih kvs key hk
      | str s => exact ih kvs key hk

/-- When no dependency value is an object, the `dependencies` loop
    returns the members unchanged (only object-valued dependencies
    re-validate — and possibly mutate — the instance). -/
theorem depsLoop_noObj (v : Json → Json → String → Json × Option CppErr) (name : String) :
    ∀ (dkvs : JObj), (∀ p ∈ jobjPairs dkvs, isObjNode p.2 = false) →
      ∀ kvs : JObj, (depsLoop v name dkvs kvs).1 = kvs := by
  intro dkvs
  induction dkvs using jobjInd with
  | hnil => intro _ kvs; rfl
  | hcons dk dv tl ih =>
    intro hno kvs
    have hnotl : ∀ p ∈ jobjPairs tl, isObjNode p.2 = false :=
      fun p hp => hno p (by simp [jobjPairs]; exact Or.inr hp)
    have hdv : isObjNode dv = false := hno (dk, dv) (by simp [jobjPairs])
    simp only [depsLoop]
    by_cases hl : (kvs.lookup dk).isNone = true
    · rw [if_pos hl]; exact ih hnotl kvs
    · rw [if_neg hl]
      cases dv with
      | obj dkvs2 => simp [isObjNode] at hdv
      | arr els =>
        dsimp only
        cases depArrayCheck kvs (name ++ ".dependency-of-" ++ dk) els.toList with
        | some e => rfl
        | none => exact ih hnotl kvs
      | null => exact ih hnotl kvs
      | bool b => exact ih hnotl kvs
      | numU n => exact ih hnotl kvs
      | numI n => exact ih hnotl kvs
      | numF q => exact ih hnotl kvs
      | str s => exact ih hnotl kvs

/-- If the recursive validator never loses a top-level key,
    `validate_object` only ever adds keys (by default insertion or a
    dependency's recursion), never removes one. -/
theorem validate_object_mono (v : Json → Json → String → Json × Option CppErr)
    (hm : ∀ i s n key, key ∈ keysOf i → key ∈ keysOf (v i s n).1)
    (dvi : Bool) (rs : String → String → Bool)
    (kvs : JObj) (schema : Json) (name : String) (key : String)
    (hk : key ∈ kvs.keys) :
    key ∈ (validate_object v dvi rs kvs schema name).1.keys := by
  unfold validate_object
  cases validate_type schema "object" name with
  | some e => exact hk
  | none =>
    dsimp only
    have hk1 : key ∈ (match dvi with
        | true => defaultsInsert (objMembers ((schema.find "properties").getD .null)) kvs
        | false => kvs).keys := by
      cases dvi with
      | false => exact hk
      | true => exact (defaultsInsert_mem_keys key _ kvs).mpr (Or.inl hk)
    cases dvi with
    | false =>
      dsimp only at hk1 ⊢
      cases maxPropertiesCheck kvs.length schema name with
      | some e => exact hk1
      | none =>
        dsimp only
        cases minPropertiesCheck kvs.length schema name with
        | some e => exact hk1
        | none =>
          dsimp only
          cases hcl : childLoop v rs ((schema.find "properties").getD .null)
              ((schema.find "patternProperties").getD .null) (apModeOf schema) name kvs with
          | mk kvs2 e =>
            have hk2 : key ∈ kvs2.keys := by
              have h := childLoop_keys v rs ((schema.find "properties").getD .null)
                ((schema.find "patternProperties").getD .null) (apModeOf schema) name kvs
              rw [hcl] at h; rw [h]; exact hk1
            cases e with
            | some err => exact hk2
            | none =>
              dsimp only
              cases requiredPart kvs2 schema name with
              | some e => exact hk2
              | none =>
                dsimp only
                unfold depsPart
                cases schema.find "dependencies" with
                | none => exact hk2
                | some dv =>
                  cases dv with
                  | obj dkvs => exact depsLoop_mono v hm name dkvs kvs2 key hk2
                  | null => exact hk2
                  | bool b => exact hk2
                  | numU n => exact hk2
                  | numI n => exact hk2
                  | numF q => exact hk2
                  | str s => exact hk2
                  | arr xs => exact hk2
    | true =>
      dsimp only at hk1 ⊢
      cases maxPropertiesCheck (defaultsInsert (objMembers
          ((schema.find "properties").getD .null)) kvs).length schema name with
      | some e => exact hk1
      | none =>
        dsimp only
        cases minPropertiesCheck (defaultsInsert (objMembers
            ((schema.find "properties").getD .null)) kvs).length schema name with
        | some e => exact hk1
        | none =>
          dsimp only
          cases hcl : childLoop v rs ((schema.find "properties").getD .null)
              ((schema.find "patternProperties").getD .null) (apModeOf schema) name
              (defaultsInsert (objMembers ((schema.find "properties").getD .null)) kvs) with
          | mk kvs2 e =>
            have hk2 : key ∈ kvs2.keys := by
              have h := childLoop_keys v rs ((schema.find "properties").getD .null)
                ((schema.find "patternProperties").getD .null) (apModeOf schema) name
                (defaultsInsert (objMembers ((schema.find "properties").getD .null)) kvs)
              rw [hcl] at h; rw [h]; exact hk1
            cases e with
            | some err => exact hk2
            | none =>
              dsimp only
              cases requiredPart kvs2 schema name with
              | some e => exact hk2
              | none =>
                dsimp only
                unfold depsPart
                cases schema.find "dependencies" with
                | none => exact hk2
                | some dv =>
                  cases dv with
                  | obj dkvs => exact depsLoop_mono v hm name dkvs kvs2 key hk2
                  | null => exact hk2
                  | bool b => exact hk2
                  | numU n => exact hk2
                  | numI n => exact hk2
                  | numF q => exact hk2
                  | str s => exact hk2
                  | arr xs => exact hk2

/-- `validate` never loses a top-level key of its instance, for any
    context (defaults on or off) and any fuel. -/
theorem validate_keys_mono (ctx : Ctx) :
    ∀ (fuel : Nat) (inst schema : Json) (name key : String),
      key ∈ keysOf inst → key ∈ keysOf (validate ctx fuel inst schema name).1 := by
  intro fuel
  induction fuel with
  | zero => intro inst schema name key hk; exact hk
  | succ fuel ih =>
    intro inst schema name key hk
    simp only [validate]
    cases nyiCombinators schema with
    | some e => exact hk
    | none =>
      dsimp only
      cases chaseRef ctx.corpus (ctx.corpus.length + 1) schema with
      | error e => exact hk
      | ok schema2 =>
        dsimp only
        cases validate_enum inst schema2 name with
        | some e => exact hk
        | none =>
          dsimp only
          cases inst with
          | obj kvs =>
            exact validate_object_mono (fun i s n => validate ctx fuel i s n)
              (fun i s n key hk2 => ih i s n key hk2) ctx.dvi ctx.rs kvs schema2 name key
              (by simpa [keysOf] using hk)
          | arr xs => simp [keysOf] at hk
          | null => simp [keysOf] at hk
          | bool b => simp [keysOf] at hk
          | numU n => simp [keysOf] at hk
          | numI n => simp [keysOf] at hk
          | numF q => simp [keysOf] at hk
          | str s => simp [keysOf] at hk

/-- With defaults enabled, no object-valued dependency, and a successful
    run, the keys present after `validate_object` are exactly the old
    keys plus the defaulted property names. -/
theorem validate_object_exact (v : Json → Json → String → Json × Option CppErr)
    (rs : String → String → Bool) (kvs : JObj) (schema : Json) (name : String)
    (hdeps : ∀ dv, schema.find "dependencies" = some dv →
      ∀ p ∈ jobjPairs (objMembers dv), isObjNode p.2 = false)
    (hok : (validate_object v true rs kvs schema name).2 = none) :
    ∀ key, key ∈ (validate_object v true rs kvs schema name).1.keys
      ↔ (key ∈ kvs.keys ∨ key ∈ defaultedKeys schema) := by
  intro key
  unfold validate_object at hok ⊢
  cases hto : validate_type schema "object" name with
  | some e => rw [hto] at hok; dsimp only at hok; exact absurd hok (by simp)
  | none =>
    rw [hto] at hok; dsimp only at hok ⊢
    cases hmx : maxPropertiesCheck (defaultsInsert (objMembers
        ((schema.find "properties").getD .null)) kvs).length schema name with
    | some e => rw [hmx] at hok; dsimp only at hok; exact absurd hok (by simp)
    | none =>
      rw [hmx] at hok; dsimp only at hok ⊢
      cases hmn : minPropertiesCheck (defaultsInsert (objMembers
          ((schema.find "properties").getD .null)) kvs).length schema name with
      | some e => rw [hmn] at hok; dsimp only at hok; exact absurd hok (by simp)
      | none =>
        rw [hmn] at hok; dsimp only at hok ⊢
        cases hcl : childLoop v rs ((schema.find "properties").getD .null)
            ((schema.find "patternProperties").getD .null) (apModeOf schema) name
            (defaultsInsert (objMembers ((schema.find "properties").getD .null)) kvs) with
        | mk kvs2 e =>
          have hkeys : kvs2.keys = (defaultsInsert (objMembers
              ((schema.find "properties").getD .null)) kvs).keys := by
            have h := childLoop_keys v rs ((schema.find "properties").getD .null)
              ((schema.find "patternProperties").getD .null) (apModeOf schema) name
              (defaultsInsert (objMembers ((schema.find "properties").getD .null)) kvs)
            rw [hcl] at h; exact h
          rw [hcl] at hok
          cases e with
          | some err => dsimp only at hok; exact absurd hok (by simp)
          | none =>
            dsimp only at hok ⊢
            cases hrq : requiredPart kvs2 schema name with
            | some e => rw [hrq] at hok; dsimp only at hok; exact absurd hok (by simp)
            | none =>
              rw [hrq] at hok; dsimp only at hok ⊢
              unfold depsPart at hok ⊢
              cases hdp : schema.find "dependencies" with
              | none =>
                dsimp only
                rw [hkeys, defaultsInsert_mem_keys]
                simp only [defaultedKeys]
              | some dv =>
                rw [hdp] at hok
                cases dv with
                | null =>
                  dsimp only
                  rw [hkeys, defaultsInsert_mem_keys]
                  simp only [defaultedKeys]
                | obj dkvs =>
                  dsimp only
                  have hdl := depsLoop_noObj v name dkvs (hdeps (.obj dkvs) hdp) kvs2
                  rw [hdl, hkeys, defaultsInsert_mem_keys]
                  simp only [defaultedKeys]
                | bool b => dsimp only at hok; exact absurd hok (by simp)
                | numU n => dsimp only at hok; exact absurd hok (by simp)
                | numI n => dsimp only at hok; exact absurd hok (by simp)
                | numF q => dsimp only at hok; exact absurd hok (by simp)
                | str s => dsimp only at hok; exact absurd hok (by simp)
                | arr xs => dsimp only at hok; exact absurd hok (by simp)

/-- A schema without `$ref` chases to itself in one step. -/
theorem chaseRef_noRef (corpus : List (String × Json)) (n : Nat) (s : Json)
    (h : s.find "$ref" = none) : chaseRef corpus (n + 1) s = .ok s := by
  simp [chaseRef, h]

/-- One unfolding of `validate` when a refused combinator is present. -/
theorem validate_succ_nyi (ctx : Ctx) (fuel : Nat) (inst schema : Json)
    (name : String) (e : CppErr) (hny : nyiCombinators schema = some e) :
    validate ctx (fuel + 1) inst schema name = (inst, some e) := by
  simp only [validate, hny]

/-- One unfolding of `validate` when the (ref-free) schema rejects the
    instance at the `enum` stage. -/
theorem validate_succ_enum (ctx : Ctx) (fuel : Nat) (inst schema : Json)
    (name : String) (e : CppErr) (hny : nyiCombinators schema = none)
    (href : schema.find "$ref" = none)
    (hen : validate_enum inst schema name = some e) :
    validate ctx (fuel + 1) inst schema name = (inst, some e) := by
  simp only [validate, hny, chaseRef_noRef ctx.corpus ctx.corpus.length schema href, hen]

/-- One unfolding of `validate` on an object instance against a ref-free
    schema that passes the combinator and `enum` stages. -/
theorem validate_succ_obj (ctx : Ctx) (fuel : Nat) (kvs : JObj) (schema : Json)
    (name : String) (hny : nyiCombinators schema = none)
    (href : schema.find "$ref" = none)
    (hen : validate_enum (.obj kvs) schema name = none) :
    validate ctx (fuel + 1) (.obj kvs) schema name
      = (.obj (validate_object (fun i s n => validate ctx fuel i s n)
            ctx.dvi ctx.rs kvs schema name).1,
         (validate_object (fun i s n => validate ctx fuel i s n)
            ctx.dvi ctx.rs kvs schema name).2) := by
  simp only [validate, hny, chaseRef_noRef ctx.corpus ctx.corpus.length schema href, hen]

/-- Claim C7, counterexample: with defaults enabled, validating
    `{"a":1}` against a schema whose only member is an object-valued
    dependency carrying `properties.b.default = 5` succeeds and leaves
    the instance with the new key `b` — yet the top-level schema has no
    `properties` at all, so the newly present key is *not* among the
    schema's defaulted property names, contradicting the claimed
    "exactly" characterisation. -/
theorem dependency_default_insertion_breaks_exactness :
    validate ctxD 20 (Json.mkObj [("a", .numU 1)]) depDefaultSchema "root"
      = (Json.mkObj [("a", .numU 1), ("b", .numU 5)], none)
    ∧ depDefaultSchema.find "properties" = none
    ∧ defaultedKeys depDefaultSchema = [] :=
  ⟨rfl, rfl, rfl⟩

/-- Claim C7, amended: (1) validation never loses a top-level key of an
    object instance, for any context and fuel; (2) with defaults
    enabled, for a schema without `$ref` and without object-valued
    `dependencies` (which re-validate the same instance and can insert
    their own defaults — see the counterexample), a successful
    validation leaves present exactly the old keys plus the keys of
    `properties` entries carrying a `default`; (3) the scenario: the
    empty object against the width/height schema afterwards equals
    `{"height":10,"width":20}`. -/
theorem default_insertion_key_accounting :
    (∀ (ctx : Ctx) (fuel : Nat) (inst schema : Json) (name key : String),
      key ∈ keysOf inst → key ∈ keysOf (validate ctx fuel inst schema name).1)
    ∧ (∀ (corpus : List (String × Json)) (rs : String → String → Bool) (fuel : Nat)
        (kvs : JObj) (schema : Json) (name : String),
      schema.find "$ref" = none →
      (∀ dv, schema.find "dependencies" = some dv →
        ∀ p ∈ jobjPairs (objMembers dv), isObjNode p.2 = false) →
      (validate ⟨corpus, true, rs⟩ (fuel + 1) (.obj kvs) schema name).2 = none →
      ∀ key, key ∈ keysOf (validate ⟨corpus, true, rs⟩ (fuel + 1) (.obj kvs) schema name).1
        ↔ (key ∈ kvs.keys ∨ key ∈ defaultedKeys schema))
    ∧ validate ctxD 20 (.obj .nil) defaultsSchema "root"
        = (Json.mkObj [("height", .numU 10), ("width", .numU 20)], none) := by
  refine ⟨fun ctx fuel inst schema name key hk =>
      validate_keys_mono ctx fuel inst schema name key hk, ?_, rfl⟩
  intro corpus rs fuel kvs schema name href hdeps hok key
  cases hny : nyiCombinators schema with
  | some e =>
    rw [validate_succ_nyi ⟨corpus, true, rs⟩ fuel (.obj kvs) schema name e hny] at hok
    exact absurd hok (by simp)
  | none =>
    cases hen : validate_enum (.obj kvs) schema name with
    | some e =>
      rw [validate_succ_enum ⟨corpus, true, rs⟩ fuel (.obj kvs) schema name e
        hny href hen] at hok
      exact absurd hok (by simp)
    | none =>
      rw [validate_succ_obj ⟨corpus, true, rs⟩ fuel kvs schema name hny href hen] at hok ⊢
      exact validate_object_exact (fun i s n => validate ⟨corpus, true, rs⟩ fuel i s n)
        rs kvs schema name hdeps hok key

theorem default_insertion_key_accounting_witness :
    "width" ∈ keysOf (validate ⟨[], true, fun _ _ => false⟩ 20
      (.obj .nil) defaultsSchema "root").1 :=
  (default_insertion_key_accounting.2.1 [] (fun _ _ => false) 19 .nil defaultsSchema
    "root" rfl (fun _ h => Option.noConfusion h) rfl "width").mpr (Or.inr (by decide))
